import Mathlib

/-!
Shallow embedding of the graphql-sync execution core (the compiled
execution module in src/graphql.js) and proofs about selection
collection, field resolution, value completion and error handling.

Modelling conventions:

* JavaScript values flowing through execution are modelled by `JValue`.
  Numbers are integers, so the NaN case of `isNullish` does not arise.
* The mutable `exeContext.errors` array and the sequence of resolver
  invocations are modelled writer-style: every execution function
  returns, besides its outcome, the list of errors it appended and the
  resolver calls it performed, in order.  This is observationally the
  same as the single-threaded depth-first mutation in the source.
* External collaborators are modelled by their outcomes: field AST
  nodes carry the result of `getArgumentValues` (which may be a thrown
  coercion error), directive nodes carry the coerced boolean value of
  their `if` argument (a validated document always supplies a boolean
  for the non-null `if: Boolean!` argument), and `getVariableValues`
  is a function parameter of the context builder.
* GraphQL type objects are identified with their names resolved in the
  schema; `instanceof` tests become tests on the looked-up definition.
  The callable-property branch of the default resolver is outside the
  value model.
* Recursion through object sub-selections is not structurally bounded
  (an unvalidated document may contain cyclic fragments, on which the
  source overflows the call stack), so the interpreter takes fuel,
  decremented once per field resolution; exhaustion produces the
  distinguished `Err.outOfFuel`, which the error-isolation layers never
  catch.  Fragment recursion in `collectFields` is fuelled likewise.
-/

namespace GqlSync

/-- Response path keys: a string field name or an integer list index. -/
inductive PathKey where
  | fname (s : String)
  | idx (n : Nat)
deriving DecidableEq, Repr

/-- Immutable singly linked response path; `nil` is the JS `undefined`
passed for the operation root, `node` is an `addPath` cell. -/
inductive ResponsePath where
  | nil
  | node (prev : ResponsePath) (key : PathKey)
deriving DecidableEq, Repr

/-- Source addPath: extend the path by prepending a reference to the
parent node. -/
def addPath (prev : ResponsePath) (key : PathKey) : ResponsePath := .node prev key

/-- Walk the linked path from the most specific key to the root. -/
def responsePathWalk : ResponsePath → List PathKey
  | .nil => []
  | .node prev key => key :: responsePathWalk prev

/-- Source responsePathAsArray: flatten the linked path and reverse to
root-first order. -/
def responsePathAsArray (path : ResponsePath) : List PathKey :=
  (responsePathWalk path).reverse

/-- JavaScript-like values produced and consumed by resolvers. -/
inductive JValue where
  | vNull
  | vUndef
  | vBool (b : Bool)
  | vInt (n : Int)
  | vStr (s : String)
  | vList (items : List JValue)
  | vObj (fields : List (String × JValue))

/-- Source isNullish: null or undefined (NaN is not representable in
the model). -/
def isNullish : JValue → Bool
  | .vNull => true
  | .vUndef => true
  | _ => false

mutual
/-- JS String(v) conversion, approximated for error messages. -/
def jstr : JValue → String
  | .vNull => "null"
  | .vUndef => "undefined"
  | .vBool true => "true"
  | .vBool false => "false"
  | .vInt n => toString n
  | .vStr s => s
  | .vList items => String.intercalate "," (jstrList items)
  | .vObj _ => "[object Object]"
/-- String conversion of every element of a list. -/
def jstrList : List JValue → List String
  | [] => []
  | v :: vs => jstr v :: jstrList vs
end

/-- Error values: a plain Error/GraphQLError carrying its message, or a
locatedError wrapping that additionally carries the response path. -/
inductive GError where
  | plain (msg : String)
  | located (msg : String) (path : List PathKey)
deriving DecidableEq, Repr

/-- Message of an error value. -/
def GError.message : GError → String
  | .plain m => m
  | .located m _ => m

/-- Path recorded on an error value, if any. -/
def GError.pathOf : GError → Option (List PathKey)
  | .plain _ => none
  | .located _ p => some p

/-- Source locatedError(error, nodes, path): wrap an error with the
response path, keeping the original message (AST locations are not
modelled). -/
def locatedError (e : GError) (path : List PathKey) : GError :=
  .located e.message path

/-- Abrupt completion of a modelled function: a thrown error value, or
exhaustion of the modelling fuel.  Fuel exhaustion is an artifact of
the embedding and is never caught by the error-isolation layers. -/
inductive Err where
  | outOfFuel
  | gerr (e : GError)
deriving DecidableEq, Repr

/-- One resolver invocation: the response path of the field in
root-first order, and the field name. -/
abbrev CallEv := List PathKey × String

/-- Result of an execution function: its outcome, together with the
errors it appended to the shared error list and the resolver calls it
made, both in execution order. -/
structure Out (α : Type) where
  res : Except Err α
  errs : List GError
  calls : List CallEv

/-- Directive occurrence on a selection node.  The value ifArg is the
coerced boolean of the directive's if argument; coercion itself is the
external getArgumentValues, and a validated document always supplies a
boolean for the non-null if argument of skip and include. -/
structure Directive where
  name : String
  ifArg : Bool
deriving DecidableEq, Repr

/-- Selection AST nodes.  Field nodes carry the outcome of coercing
their arguments against the variable values (getArgumentValues is an
external collaborator whose thrown coercion errors surface as the
error case). -/
inductive Selection where
  | field (al : Option String) (name : String) (directives : List Directive)
      (argsOutcome : Except GError JValue) (selectionSet : Option (List Selection))
  | inlineFragment (directives : List Directive) (typeCondition : Option String)
      (selectionSet : List Selection)
  | fragmentSpread (name : String) (directives : List Directive)

/-- Payload of a collected field node, as stored in a fields grouping. -/
structure FieldNode where
  al : Option String
  name : String
  directives : List Directive
  argsOutcome : Except GError JValue
  selectionSet : Option (List Selection)

/-- Placeholder node used where JS would read `fieldNodes[0]` of an
empty list (unreachable for groupings built by collectFields). -/
def emptyFieldNode : FieldNode := ⟨none, "", [], .ok .vNull, none⟩

/-- Source getFieldEntryKey: the alias if present, else the name. -/
def getFieldEntryKey (node : FieldNode) : String :=
  match node.al with
  | some a => a
  | none => node.name

/-- Fragment definition: type condition and selection set (the name is
the key under which it is stored). -/
structure FragmentDef where
  typeCondition : Option String
  selectionSet : List Selection

/-- Ordered fields grouping: response key to the ordered field nodes
merged under that key (JS object insertion order). -/
abbrev Grouping := List (String × List FieldNode)

/-- Insert a node into a grouping: append to the existing entry of the
key, else append a fresh entry at the end. -/
def groupingInsert : Grouping → String → FieldNode → Grouping
  | [], key, node => [(key, [node])]
  | (k, ns) :: rest, key, node =>
    if k == key then (k, ns ++ [node]) :: rest
    else (k, ns) :: groupingInsert rest key node

/-- Declared output type references: a named type, a list wrapper, or a
non-null wrapper. -/
inductive TypeRef where
  | named (n : String)
  | list (inner : TypeRef)
  | nonNull (inner : TypeRef)
deriving DecidableEq, Repr

/-- Whether the outermost wrapper is non-null. -/
def TypeRef.isNonNull : TypeRef → Bool
  | .nonNull _ => true
  | _ => false

/-- Structural size of a type reference, for termination measures. -/
@[simp] def TypeRef.size : TypeRef → Nat
  | .named _ => 1
  | .list t => t.size + 1
  | .nonNull t => t.size + 1

/-- Per-field resolution info passed to resolvers: the parts of
buildResolveInfo that the model observes. -/
structure Info where
  fieldName : String
  parentType : String
  path : ResponsePath

/-- Value thrown by a resolver: an Error object, or any other value. -/
inductive ThrownValue where
  | errObj (e : GError)
  | other (v : JValue)

/-- Raw field result: a data value, or an Error object flowing as a
value (the captured-failure marker). -/
inductive RawResult where
  | value (v : JValue)
  | errorVal (e : GError)

/-- Outcome of invoking a resolver function. -/
inductive ResolverOutcome where
  | returns (r : RawResult)
  | throws (t : ThrownValue)

/-- Resolver functions, invoked with (source, args, context, info). -/
abbrev Resolver := JValue → JValue → JValue → Info → ResolverOutcome

/-- Outcome of a declared resolveType: a type object reference
(identified by its name in the schema), a type name string, or
undefined. -/
inductive ResolvedType where
  | rtType (name : String)
  | rtName (s : String)
  | rtNone
deriving DecidableEq, Repr

/-- Declared resolveType functions, invoked with (value, context). -/
abbrev ResolveTypeFn := JValue → JValue → ResolvedType

/-- Declared isTypeOf predicates, invoked with (value, context). -/
abbrev IsTypeOfFn := JValue → JValue → Bool

/-- Field definition: declared return type and optional resolver. -/
structure FieldDef where
  type : TypeRef
  resolve : Option Resolver

/-- Type definitions, one constructor per declared kind. -/
inductive TypeDef where
  | scalarT (serialize : JValue → JValue)
  | enumT (serialize : JValue → JValue)
  | objectT (fields : List (String × FieldDef)) (isTypeOf : Option IsTypeOfFn)
  | interfaceT (resolveType : Option ResolveTypeFn) (possibleTypes : List String)
  | unionT (resolveType : Option ResolveTypeFn) (possibleTypes : List String)

/-- Serialize operation of a leaf type, if this is a leaf type. -/
def TypeDef.serializeOf : TypeDef → Option (JValue → JValue)
  | .scalarT s => some s
  | .enumT s => some s
  | _ => none

/-- Whether this definition is a concrete object type. -/
def TypeDef.isObjectType : TypeDef → Bool
  | .objectT _ _ => true
  | _ => false

/-- Whether this definition is an abstract (interface or union) type. -/
def TypeDef.isAbstractType : TypeDef → Bool
  | .interfaceT _ _ => true
  | .unionT _ _ => true
  | _ => false

/-- Schema: named type definitions and the root type names. -/
structure Schema where
  types : List (String × TypeDef)
  queryType : String
  mutationType : Option String
  subscriptionType : Option String

/-- Type lookup by name. -/
def Schema.getType (s : Schema) (n : String) : Option TypeDef :=
  (s.types.find? (fun p => p.1 == n)).map (·.2)

/-- Possible types of an abstract type, in schema-declared order. -/
def Schema.getPossibleTypes (s : Schema) (n : String) : List String :=
  match s.getType n with
  | some (.interfaceT _ pts) => pts
  | some (.unionT _ pts) => pts
  | _ => []

/-- Whether objName is a possible type of the abstract type. -/
def Schema.isPossibleType (s : Schema) (abstractName objName : String) : Bool :=
  (s.getPossibleTypes abstractName).contains objName

/-- Source shouldIncludeNode: a present skip directive whose coerced if
argument is true excludes the node; otherwise a present include
directive whose coerced if argument is false excludes it; otherwise
the node is included.  find? takes the first directive of each name. -/
def shouldIncludeNode (directives : List Directive) : Bool :=
  let skipExcludes :=
    match directives.find? (fun d => d.name == "skip") with
    | some skipNode => skipNode.ifArg == true
    | none => false
  if skipExcludes then false
  else
    match directives.find? (fun d => d.name == "include") with
    | some includeNode => if includeNode.ifArg == false then false else true
    | none => true

/-- Source doesFragmentConditionMatch: no condition always matches;
otherwise resolve the condition name in the schema (typeFromAST); match
on identity with the runtime type, or, for an abstract condition, on
schema-reported possible-type membership. -/
def doesFragmentConditionMatch (schema : Schema) (typeCondition : Option String)
    (typeName : String) : Bool :=
  match typeCondition with
  | none => true
  | some condName =>
    match schema.getType condName with
    | none => false
    | some td =>
      if condName == typeName then true
      else if td.isAbstractType then schema.isPossibleType condName typeName
      else false

/-- Source collectFields: walk the selection set, merging included
field nodes into the grouping keyed by alias-or-name, recursing through
matching inline fragments and not-yet-visited, included, defined,
matching fragment spreads.  The fuel bounds fragment recursion; none
signals exhaustion. -/
def collectFields (fuel : Nat) (schema : Schema) (fragments : List (String × FragmentDef))
    (runtimeType : String) (selections : List Selection)
    (fields : Grouping) (visited : List String) : Option (Grouping × List String) :=
  match selections with
  | [] => some (fields, visited)
  | .field al nm dirs args ss :: rest =>
    if shouldIncludeNode dirs then
      let node : FieldNode := ⟨al, nm, dirs, args, ss⟩
      collectFields fuel schema fragments runtimeType rest
        (groupingInsert fields (getFieldEntryKey node) node) visited
    else collectFields fuel schema fragments runtimeType rest fields visited
  | .inlineFragment dirs cond ss :: rest =>
    if shouldIncludeNode dirs && doesFragmentConditionMatch schema cond runtimeType then
      if _hfuel : fuel = 0 then none
      else
        match collectFields (fuel - 1) schema fragments runtimeType ss fields visited with
        | none => none
        | some (f2, v2) => collectFields fuel schema fragments runtimeType rest f2 v2
    else collectFields fuel schema fragments runtimeType rest fields visited
  | .fragmentSpread fragName dirs :: rest =>
    if visited.contains fragName || !shouldIncludeNode dirs then
      collectFields fuel schema fragments runtimeType rest fields visited
    else
      let visited2 := fragName :: visited
      match (fragments.find? (fun p => p.1 == fragName)).map (·.2) with
      | none => collectFields fuel schema fragments runtimeType rest fields visited2
      | some frag =>
        if doesFragmentConditionMatch schema frag.typeCondition runtimeType then
          if _hfuel : fuel = 0 then none
          else
            match collectFields (fuel - 1) schema fragments runtimeType frag.selectionSet fields visited2 with
            | none => none
            | some (f2, v2) => collectFields fuel schema fragments runtimeType rest f2 v2
        else collectFields fuel schema fragments runtimeType rest fields visited2
termination_by (fuel, selections.length)

/-- Modelled from the introspection module: the field definition of
the __schema meta field (its resolution behaviour is abstracted; only
its presence and special-casing matter here). -/
def SchemaMetaFieldDef : FieldDef :=
  ⟨.named "__Schema", some (fun _ _ _ _ => .returns (.value .vNull))⟩

/-- Modelled from the introspection module: the field definition of
the __type meta field. -/
def TypeMetaFieldDef : FieldDef :=
  ⟨.named "__Type", some (fun _ _ _ _ => .returns (.value .vNull))⟩

/-- Modelled from the introspection module: the field definition of
the __typename meta field, whose resolver returns the parent type
name. -/
def TypeNameMetaFieldDef : FieldDef :=
  ⟨.nonNull (.named "String"), some (fun _ _ _ info => .returns (.value (.vStr info.parentType)))⟩

/-- Source getFieldDef: special-case __schema and __type on the query
root type only and __typename on every type, else look the field up on
the parent object type. -/
def getFieldDef (schema : Schema) (parentType : String) (fieldName : String) :
    Option FieldDef :=
  if fieldName == "__schema" && schema.queryType == parentType then some SchemaMetaFieldDef
  else if fieldName == "__type" && schema.queryType == parentType then some TypeMetaFieldDef
  else if fieldName == "__typename" then some TypeNameMetaFieldDef
  else
    match schema.getType parentType with
    | some (.objectT flds _) => (flds.find? (fun p => p.1 == fieldName)).map (·.2)
    | _ => none

/-- Source defaultFieldResolver: property access on object sources,
undefined otherwise.  The callable-property branch is outside the
value model, and a null source never reaches a resolver because object
completion rejects null-ish results first. -/
def defaultFieldResolver : Resolver := fun source _args _context info =>
  match source with
  | .vObj flds =>
    .returns (.value (((flds.find? (fun p => p.1 == info.fieldName)).map (·.2)).getD .vUndef))
  | _ => .returns (.value .vUndef)

/-- Operation definition node: kind, optional name and selection set.
Variable definitions are folded into the external getVariableValues
collaborator. -/
structure OperationDef where
  operation : String
  name : Option String
  selectionSet : List Selection

/-- Top-level document definitions. -/
inductive Definition where
  | operationDef (op : OperationDef)
  | fragmentDef (name : String) (frag : FragmentDef)
  | otherDef (kind : String)

/-- Execution context assembled once per run.  The mutable errors list
is modelled writer-style by the Out results instead. -/
structure ExecutionContext where
  schema : Schema
  fragments : List (String × FragmentDef)
  rootValue : JValue
  contextValue : JValue
  operation : OperationDef
  variableValues : JValue
  fieldResolver : Resolver

/-- Keyed insertion into the fragment mapping; a later definition of
the same name wins. -/
def fragmentsInsert (frags : List (String × FragmentDef)) (name : String)
    (f : FragmentDef) : List (String × FragmentDef) :=
  match frags with
  | [] => [(name, f)]
  | (k, g) :: rest =>
    if k == name then (k, f) :: rest else (k, g) :: fragmentsInsert rest name f

/-- Document scan of buildExecutionContext: select the operation and
build the fragment mapping, throwing on a second operation when no
operation name was supplied and on non-executable definition kinds. -/
def buildCtxScan (operationName : Option String) :
    List Definition → Option OperationDef → List (String × FragmentDef) →
    Except GError (Option OperationDef × List (String × FragmentDef))
  | [], op, frags => .ok (op, frags)
  | .operationDef o :: rest, op, frags =>
    if operationName.isNone && op.isSome then
      .error (.plain "Must provide operation name if query contains multiple operations.")
    else if operationName.isNone ||
        (match o.name, operationName with
         | some nm, some onm => nm == onm
         | _, _ => false) then
      buildCtxScan operationName rest (some o) frags
    else buildCtxScan operationName rest op frags
  | .fragmentDef nm f :: rest, op, frags =>
    buildCtxScan operationName rest op (fragmentsInsert frags nm f)
  | .otherDef kind :: _, _, _ =>
    .error (.plain ("GraphQL cannot execute a request containing a " ++ kind ++ "."))

/-- Source buildExecutionContext: scan the document, fail when no
operation was selected, coerce the variable values (external
collaborator, passed as a function), and assemble the context. -/
def buildExecutionContext (schema : Schema) (document : List Definition)
    (rootValue contextValue : JValue)
    (getVariableValues : OperationDef → Except GError JValue)
    (operationName : Option String) (fieldResolver : Option Resolver) :
    Except GError ExecutionContext :=
  match buildCtxScan operationName document none [] with
  | .error e => .error e
  | .ok (none, _) =>
    match operationName with
    | some nm => .error (.plain ("Unknown operation named \"" ++ nm ++ "\"."))
    | none => .error (.plain "Must provide an operation.")
  | .ok (some op, frags) =>
    match getVariableValues op with
    | .error e => .error e
    | .ok vv =>
      .ok { schema := schema, fragments := frags, rootValue := rootValue,
            contextValue := contextValue, operation := op, variableValues := vv,
            fieldResolver := fieldResolver.getD defaultFieldResolver }

/-- Source resolveFieldValueOrError: coerce the arguments and invoke
the resolver inside a try block; a thrown value is returned as an
Error value, wrapped into a generic Error when it is not one.  Also
reports the resolver invocation performed, if any. -/
def resolveFieldValueOrError (fieldNode : FieldNode) (resolveFn : Resolver)
    (source : JValue) (contextValue : JValue) (info : Info) :
    RawResult × List CallEv :=
  match fieldNode.argsOutcome with
  | .error e => (.errorVal e, [])
  | .ok args =>
    let ev : CallEv := (responsePathAsArray info.path, info.fieldName)
    match resolveFn source args contextValue info with
    | .returns r => (r, [ev])
    | .throws (.errObj e) => (.errorVal e, [ev])
    | .throws (.other v) => (.errorVal (.plain (jstr v)), [ev])

/-- Source completeLeafValue: invoke serialize on the raw result and
throw when the serialized result is null-ish. -/
def completeLeafValue (typeName : String) (serialize : JValue → JValue)
    (result : JValue) : Except GError JValue :=
  let serializedResult := serialize result
  if isNullish serializedResult then
    .error (.plain ("Expected a value of type \"" ++ typeName ++ "\" but received: "
      ++ jstr result))
  else .ok serializedResult

/-- Probing loop of defaultResolveTypeFn over a possible-type list. -/
def defaultResolveTypeGo (schema : Schema) (value context : JValue) :
    List String → ResolvedType
  | [] => .rtNone
  | t :: rest =>
    match schema.getType t with
    | some (.objectT _ (some pred)) =>
      if pred value context then .rtType t
      else defaultResolveTypeGo schema value context rest
    | _ => defaultResolveTypeGo schema value context rest

/-- Source defaultResolveTypeFn: probe the abstract type's possible
types in schema-declared order and return the first whose isTypeOf
accepts the value; undefined when none does. -/
def defaultResolveTypeFn (value context : JValue) (schema : Schema)
    (abstractType : String) : ResolvedType :=
  defaultResolveTypeGo schema value context (schema.getPossibleTypes abstractType)

/-- Source ensureValidRuntimeType: resolve a name string via schema
lookup, require a concrete object type, and require that the schema
reports the type as possible for the abstract type. -/
def ensureValidRuntimeType (runtimeTypeOrName : ResolvedType) (schema : Schema)
    (returnTypeName : String) (info : Info) (result : JValue) :
    Except GError String :=
  let runtimeName : Option String :=
    match runtimeTypeOrName with
    | .rtName s => some s
    | .rtType n => some n
    | .rtNone => none
  match runtimeName with
  | none =>
    .error (.plain ("Abstract type " ++ returnTypeName
      ++ " must resolve to an Object type at runtime for field " ++ info.parentType
      ++ "." ++ info.fieldName ++ " with value \"" ++ jstr result
      ++ "\", received \"undefined\"."))
  | some n =>
    match schema.getType n with
    | some td =>
      if td.isObjectType then
        if schema.isPossibleType returnTypeName n then .ok n
        else
          .error (.plain ("Runtime Object type \"" ++ n
            ++ "\" is not a possible type for \"" ++ returnTypeName ++ "\"."))
      else
        .error (.plain ("Abstract type " ++ returnTypeName
          ++ " must resolve to an Object type at runtime for field " ++ info.parentType
          ++ "." ++ info.fieldName ++ " with value \"" ++ jstr result
          ++ "\", received \"" ++ n ++ "\"."))
    | none =>
      .error (.plain ("Abstract type " ++ returnTypeName
        ++ " must resolve to an Object type at runtime for field " ++ info.parentType
        ++ "." ++ info.fieldName ++ " with value \"" ++ jstr result
        ++ "\", received \"undefined\"."))

mutual

/-- Source executeFields, the "read" mode driver: reduce over the
grouping keys in insertion order, omitting the key when resolveField
returned undefined. -/
def executeFields (fuel : Nat) (ctx : ExecutionContext) (parentType : String)
    (sourceValue : JValue) (path : ResponsePath) (fields : Grouping) : Out JValue :=
  let r := executeFieldsEntries fuel ctx parentType sourceValue path fields
  ⟨r.res.map JValue.vObj, r.errs, r.calls⟩
termination_by (fuel, 2, 0)

/-- Reduce body of executeFields over the remaining grouping entries. -/
def executeFieldsEntries (fuel : Nat) (ctx : ExecutionContext) (parentType : String)
    (sourceValue : JValue) (path : ResponsePath) :
    Grouping → Out (List (String × JValue))
  | [] => ⟨.ok [], [], []⟩
  | (responseName, fieldNodes) :: rest =>
    let fieldPath := addPath path (.fname responseName)
    let r := resolveField fuel ctx parentType sourceValue fieldNodes fieldPath
    match r.res with
    | .error e => ⟨.error e, r.errs, r.calls⟩
    | .ok none =>
      let rr := executeFieldsEntries fuel ctx parentType sourceValue path rest
      ⟨rr.res, r.errs ++ rr.errs, r.calls ++ rr.calls⟩
    | .ok (some v) =>
      let rr := executeFieldsEntries fuel ctx parentType sourceValue path rest
      ⟨rr.res.map (fun l => (responseName, v) :: l), r.errs ++ rr.errs, r.calls ++ rr.calls⟩
termination_by g => (fuel, 1, g.length)

/-- Source resolveField: look up the field definition, silently
omitting the field when absent (ok none is the JS undefined no-entry
result); otherwise invoke the resolver through
resolveFieldValueOrError and complete the result with error
isolation. -/
def resolveField (fuel : Nat) (ctx : ExecutionContext) (parentType : String)
    (source : JValue) (fieldNodes : List FieldNode) (path : ResponsePath) :
    Out (Option JValue) :=
  let fieldNode := fieldNodes.headD emptyFieldNode
  match getFieldDef ctx.schema parentType fieldNode.name with
  | none => ⟨.ok none, [], []⟩
  | some fieldDef =>
    let resolveFn := fieldDef.resolve.getD ctx.fieldResolver
    let info : Info := ⟨fieldNode.name, parentType, path⟩
    let rc := resolveFieldValueOrError fieldNode resolveFn source ctx.contextValue info
    if _hfuel : fuel = 0 then ⟨.error .outOfFuel, [], rc.2⟩
    else
      let c := completeValueCatchingError (fuel - 1) ctx fieldDef.type fieldNodes info path rc.1
      ⟨c.res.map some, c.errs, rc.2 ++ c.calls⟩
termination_by (fuel, 0, 0)

/-- Source completeValueCatchingError: a non-null return type is
completed without protection; any other return type catches a thrown
error, appends it to the error list and resolves null. -/
def completeValueCatchingError (fuel : Nat) (ctx : ExecutionContext) (returnType : TypeRef)
    (fieldNodes : List FieldNode) (info : Info) (path : ResponsePath)
    (result : RawResult) : Out JValue :=
  match returnType with
  | .nonNull inner =>
    completeValueWithLocatedError fuel ctx (.nonNull inner) fieldNodes info path result
  | .list inner =>
    let c := completeValueWithLocatedError fuel ctx (.list inner) fieldNodes info path result
    match c.res with
    | .error (.gerr e) => ⟨.ok .vNull, c.errs ++ [e], c.calls⟩
    | _ => c
  | .named n =>
    let c := completeValueWithLocatedError fuel ctx (.named n) fieldNodes info path result
    match c.res with
    | .error (.gerr e) => ⟨.ok .vNull, c.errs ++ [e], c.calls⟩
    | _ => c
termination_by (fuel, returnType.size * 16 + 8, 0)

/-- Source completeValueWithLocatedError: annotate a thrown error with
the field nodes' locations and the response path as an array. -/
def completeValueWithLocatedError (fuel : Nat) (ctx : ExecutionContext) (returnType : TypeRef)
    (fieldNodes : List FieldNode) (info : Info) (path : ResponsePath)
    (result : RawResult) : Out JValue :=
  let c := completeValue fuel ctx returnType fieldNodes info path result
  match c.res with
  | .error (.gerr e) =>
    ⟨.error (.gerr (locatedError e (responsePathAsArray path))), c.errs, c.calls⟩
  | _ => c
termination_by (fuel, returnType.size * 16 + 7, 0)

/-- Source completeValue: re-raise a captured Error result; unwrap
non-null types, throwing when the inner completion produced null;
return null for null-ish results; dispatch lists, leaf types, abstract
types and object types.  The single null-ish check of the source is
distributed over the two non-non-null type constructors. -/
def completeValue (fuel : Nat) (ctx : ExecutionContext) (returnType : TypeRef)
    (fieldNodes : List FieldNode) (info : Info) (path : ResponsePath)
    (result : RawResult) : Out JValue :=
  match result with
  | .errorVal e => ⟨.error (.gerr e), [], []⟩
  | .value v =>
    match returnType with
    | .nonNull inner =>
      let c := completeValue fuel ctx inner fieldNodes info path (.value v)
      match c.res with
      | .ok .vNull =>
        ⟨.error (.gerr (.plain ("Cannot return null for non-nullable field "
          ++ info.parentType ++ "." ++ info.fieldName ++ "."))), c.errs, c.calls⟩
      | _ => c
    | .list inner =>
      if isNullish v then ⟨.ok .vNull, [], []⟩
      else completeListValue fuel ctx inner fieldNodes info path v
    | .named n =>
      if isNullish v then ⟨.ok .vNull, [], []⟩
      else
        match ctx.schema.getType n with
        | some (.scalarT ser) =>
          ⟨(completeLeafValue n ser v).mapError Err.gerr, [], []⟩
        | some (.enumT ser) =>
          ⟨(completeLeafValue n ser v).mapError Err.gerr, [], []⟩
        | some (.interfaceT rt pts) =>
          completeAbstractValue fuel ctx n (.interfaceT rt pts) fieldNodes info path v
        | some (.unionT rt pts) =>
          completeAbstractValue fuel ctx n (.unionT rt pts) fieldNodes info path v
        | some (.objectT _flds _iso) =>
          completeObjectValue fuel ctx n fieldNodes info path v
        | none =>
          ⟨.error (.gerr (.plain ("Cannot complete value of unexpected type \""
            ++ n ++ "\"."))), [], []⟩
termination_by (fuel, returnType.size * 16 + 6, 0)

/-- Source completeListValue: require an iterable collection, then
complete each element independently against the inner type, each
under its own error-isolation layer keyed by its index. -/
def completeListValue (fuel : Nat) (ctx : ExecutionContext) (itemType : TypeRef)
    (fieldNodes : List FieldNode) (info : Info) (path : ResponsePath)
    (result : JValue) : Out JValue :=
  match result with
  | .vList items =>
    let r := completeListItems fuel ctx itemType fieldNodes info path items 0
    ⟨r.res.map JValue.vList, r.errs, r.calls⟩
  | _ =>
    ⟨.error (.gerr (.plain ("Expected Iterable, but did not find one for field "
      ++ info.parentType ++ "." ++ info.fieldName ++ "."))), [], []⟩
termination_by (fuel, itemType.size * 16 + 10, 0)

/-- Element loop of completeListValue: complete each element with
error isolation at its index path, collecting completed elements in
source order; an escaping (non-null) element failure aborts the
iteration like an exception escaping forEach. -/
def completeListItems (fuel : Nat) (ctx : ExecutionContext) (itemType : TypeRef)
    (fieldNodes : List FieldNode) (info : Info) (path : ResponsePath) :
    List JValue → Nat → Out (List JValue)
  | [], _ => ⟨.ok [], [], []⟩
  | item :: rest, index =>
    let fieldPath := addPath path (.idx index)
    let c := completeValueCatchingError fuel ctx itemType fieldNodes info fieldPath (.value item)
    match c.res with
    | .error e => ⟨.error e, c.errs, c.calls⟩
    | .ok cv =>
      let rr := completeListItems fuel ctx itemType fieldNodes info path rest (index + 1)
      ⟨rr.res.map (fun l => cv :: l), c.errs ++ rr.errs, c.calls ++ rr.calls⟩
termination_by items _ => (fuel, itemType.size * 16 + 9, items.length)

/-- Source completeAbstractValue: determine the runtime type via the
declared resolveType or the default probing strategy, validate it via
ensureValidRuntimeType, and proceed as object completion. -/
def completeAbstractValue (fuel : Nat) (ctx : ExecutionContext) (returnTypeName : String)
    (td : TypeDef) (fieldNodes : List FieldNode) (info : Info) (path : ResponsePath)
    (result : JValue) : Out JValue :=
  let resolveTypeOpt : Option ResolveTypeFn :=
    match td with
    | .interfaceT rt _ => rt
    | .unionT rt _ => rt
    | _ => none
  let runtimeTypeOrName :=
    match resolveTypeOpt with
    | some rt => rt result ctx.contextValue
    | none => defaultResolveTypeFn result ctx.contextValue ctx.schema returnTypeName
  match ensureValidRuntimeType runtimeTypeOrName ctx.schema returnTypeName info result with
  | .error e => ⟨.error (.gerr e), [], []⟩
  | .ok runtimeTypeName =>
    completeObjectValue fuel ctx runtimeTypeName fieldNodes info path result
termination_by (fuel, 5, 0)

/-- Source completeObjectValue: apply the declared isTypeOf predicate
when present, throwing on a false result, then collect and execute the
merged sub-selections.  The non-object fallback is unreachable for
names produced by the engine. -/
def completeObjectValue (fuel : Nat) (ctx : ExecutionContext) (returnTypeName : String)
    (fieldNodes : List FieldNode) (info : Info) (path : ResponsePath)
    (result : JValue) : Out JValue :=
  match ctx.schema.getType returnTypeName with
  | some (.objectT _ (some isTypeOf)) =>
    if isTypeOf result ctx.contextValue then
      collectAndExecuteSubfields fuel ctx returnTypeName fieldNodes info path result
    else
      ⟨.error (.gerr (.plain ("Expected value of type \"" ++ returnTypeName
        ++ "\" but got: " ++ jstr result ++ "."))), [], []⟩
  | some (.objectT _ none) =>
    collectAndExecuteSubfields fuel ctx returnTypeName fieldNodes info path result
  | _ =>
    ⟨.error (.gerr (.plain ("Cannot complete value of unexpected type \""
      ++ returnTypeName ++ "\"."))), [], []⟩
termination_by (fuel, 4, 0)

/-- Source collectAndExecuteSubfields: merge the sub-selections of all
field nodes contributing to this value into one grouping with shared
visited-fragment accumulators, then execute them in read mode. -/
def collectAndExecuteSubfields (fuel : Nat) (ctx : ExecutionContext) (returnTypeName : String)
    (fieldNodes : List FieldNode) (_info : Info) (path : ResponsePath)
    (result : JValue) : Out JValue :=
  let collected := fieldNodes.foldl
    (fun acc fn =>
      match acc with
      | none => none
      | some (flds, vis) =>
        match fn.selectionSet with
        | some ss => collectFields fuel ctx.schema ctx.fragments returnTypeName ss flds vis
        | none => some (flds, vis))
    (some (([] : Grouping), ([] : List String)))
  match collected with
  | none => ⟨.error .outOfFuel, [], []⟩
  | some (subFieldNodes, _) =>
    executeFields fuel ctx returnTypeName result path subFieldNodes
termination_by (fuel, 3, 0)

end

/-- Reduce body of executeFieldsSerially over the remaining grouping
entries.  Unlike executeFields, whose reduce is seeded with a
null-prototype object, the source seeds this reduce with a plain
object literal, so the assignment of the response key __proto__ hits
the inherited Object.prototype __proto__ setter and creates no own
key: the field is still resolved and completed (errors and resolver
calls happen as usual) but its entry is absent from the result
object. -/
def executeFieldsSeriallyEntries (fuel : Nat) (ctx : ExecutionContext) (parentType : String)
    (sourceValue : JValue) (path : ResponsePath) :
    Grouping → Out (List (String × JValue))
  | [] => ⟨.ok [], [], []⟩
  | (responseName, fieldNodes) :: rest =>
    let fieldPath := addPath path (.fname responseName)
    let r := resolveField fuel ctx parentType sourceValue fieldNodes fieldPath
    match r.res with
    | .error e => ⟨.error e, r.errs, r.calls⟩
    | .ok none =>
      let rr := executeFieldsSeriallyEntries fuel ctx parentType sourceValue path rest
      ⟨rr.res, r.errs ++ rr.errs, r.calls ++ rr.calls⟩
    | .ok (some v) =>
      let rr := executeFieldsSeriallyEntries fuel ctx parentType sourceValue path rest
      if responseName == "__proto__" then
        ⟨rr.res, r.errs ++ rr.errs, r.calls ++ rr.calls⟩
      else
        ⟨rr.res.map (fun l => (responseName, v) :: l), r.errs ++ rr.errs, r.calls ++ rr.calls⟩

/-- Source executeFieldsSerially, the "write" mode driver: reduce over
the grouping keys in insertion order (with a plain-object seed, see
executeFieldsSeriallyEntries), omitting the key when resolveField
returned undefined. -/
def executeFieldsSerially (fuel : Nat) (ctx : ExecutionContext) (parentType : String)
    (sourceValue : JValue) (path : ResponsePath) (fields : Grouping) : Out JValue :=
  let r := executeFieldsSeriallyEntries fuel ctx parentType sourceValue path fields
  ⟨r.res.map JValue.vObj, r.errs, r.calls⟩

/-- Source getOperationRootType: query root (required by schema
construction), mutation and subscription roots when configured, error
otherwise. -/
def getOperationRootType (schema : Schema) (operation : OperationDef) :
    Except GError String :=
  if operation.operation == "query" then .ok schema.queryType
  else if operation.operation == "mutation" then
    match schema.mutationType with
    | some m => .ok m
    | none => .error (.plain "Schema is not configured for mutations")
  else if operation.operation == "subscription" then
    match schema.subscriptionType with
    | some s => .ok s
    | none => .error (.plain "Schema is not configured for subscriptions")
  else .error (.plain "Can only execute queries, mutations and subscriptions")

/-- Source executeOperation: resolve the root type, collect the root
selection set, drive serial execution for mutations and read-mode
execution otherwise, and catch a failure that propagated to the root
by recording it and nulling the whole data.  A root-type resolution
failure escapes uncaught (its try block covers only field
execution). -/
def executeOperation (fuel : Nat) (ctx : ExecutionContext) (operation : OperationDef)
    (rootValue : JValue) : Out JValue :=
  match getOperationRootType ctx.schema operation with
  | .error e => ⟨.error (.gerr e), [], []⟩
  | .ok rootType =>
    match collectFields fuel ctx.schema ctx.fragments rootType operation.selectionSet [] [] with
    | none => ⟨.error .outOfFuel, [], []⟩
    | some (fields, _) =>
      let r :=
        if operation.operation == "mutation" then
          executeFieldsSerially fuel ctx rootType rootValue .nil fields
        else
          executeFields fuel ctx rootType rootValue .nil fields
      match r.res with
      | .error (.gerr e) => ⟨.ok .vNull, r.errs ++ [e], r.calls⟩
      | _ => r

/-- Execution result: data (absent, null, or an object) and the
errors list (present only when non-empty). -/
structure ExecutionResult where
  data : Option JValue
  errors : Option (List GError)

/-- Source executeImpl: build the execution context, returning only
the error on failure; otherwise execute the operation, pairing the
data with the accumulated errors.  The error case of the outer Except
models an exception escaping execute itself (a root-type resolution
failure, or fuel exhaustion); the resolver invocations performed are
reported alongside. -/
def executeImpl (fuel : Nat) (schema : Schema) (document : List Definition)
    (rootValue contextValue : JValue)
    (getVariableValues : OperationDef → Except GError JValue)
    (operationName : Option String) (fieldResolver : Option Resolver) :
    Except Err ExecutionResult × List CallEv :=
  match buildExecutionContext schema document rootValue contextValue getVariableValues
      operationName fieldResolver with
  | .error e => (.ok ⟨none, some [e]⟩, [])
  | .ok ctx =>
    let r := executeOperation fuel ctx ctx.operation rootValue
    match r.res with
    | .error er => (.error er, r.calls)
    | .ok data =>
      (.ok ⟨some data, if r.errs.isEmpty then none else some r.errs⟩, r.calls)

/-- Declared resolveType function of an abstract type definition. -/
def TypeDef.resolveTypeOf : TypeDef → Option ResolveTypeFn
  | .interfaceT rt _ => rt
  | .unionT rt _ => rt
  | _ => none

/-- Whether a top-level definition is an operation definition. -/
def Definition.isOperation : Definition → Bool
  | .operationDef _ => true
  | _ => false

/-- Whether a top-level definition is executable (an operation or a
fragment definition). -/
def Definition.isExecutable : Definition → Bool
  | .operationDef _ => true
  | .fragmentDef _ _ => true
  | .otherDef _ => false

/-- Number of operation definitions in a document. -/
def opCount (document : List Definition) : Nat :=
  document.countP (fun d => d.isOperation)

/-- Modelled from the claim wording of C2 for comparison with the
source collectFields: on a fragment spread, first skip if the name is
already visited, otherwise mark the name visited, and only then skip
if excluded by directive evaluation, the fragment is undefined, or the
type condition does not match; field and inline-fragment handling as
in the source. -/
def claimCollectFields (fuel : Nat) (schema : Schema)
    (fragments : List (String × FragmentDef)) (runtimeType : String)
    (selections : List Selection) (fields : Grouping) (visited : List String) :
    Option (Grouping × List String) :=
  match selections with
  | [] => some (fields, visited)
  | .field al nm dirs args ss :: rest =>
    if shouldIncludeNode dirs then
      let node : FieldNode := ⟨al, nm, dirs, args, ss⟩
      claimCollectFields fuel schema fragments runtimeType rest
        (groupingInsert fields (getFieldEntryKey node) node) visited
    else claimCollectFields fuel schema fragments runtimeType rest fields visited
  | .inlineFragment dirs cond ss :: rest =>
    if shouldIncludeNode dirs && doesFragmentConditionMatch schema cond runtimeType then
      if _hfuel : fuel = 0 then none
      else
        match claimCollectFields (fuel - 1) schema fragments runtimeType ss fields visited with
        | none => none
        | some (f2, v2) => claimCollectFields fuel schema fragments runtimeType rest f2 v2
    else claimCollectFields fuel schema fragments runtimeType rest fields visited
  | .fragmentSpread fragName dirs :: rest =>
    if visited.contains fragName then
      claimCollectFields fuel schema fragments runtimeType rest fields visited
    else
      let visited2 := fragName :: visited
      if !shouldIncludeNode dirs then
        claimCollectFields fuel schema fragments runtimeType rest fields visited2
      else
        match (fragments.find? (fun p => p.1 == fragName)).map (·.2) with
        | none => claimCollectFields fuel schema fragments runtimeType rest fields visited2
        | some frag =>
          if doesFragmentConditionMatch schema frag.typeCondition runtimeType then
            if _hfuel : fuel = 0 then none
            else
              match claimCollectFields (fuel - 1) schema fragments runtimeType
                  frag.selectionSet fields visited2 with
              | none => none
              | some (f2, v2) => claimCollectFields fuel schema fragments runtimeType rest f2 v2
          else claimCollectFields fuel schema fragments runtimeType rest fields visited2
termination_by (fuel, selections.length)

/-! Concrete fixtures used by witnesses. -/

/-- Fixture resolution info. -/
def fixInfo : Info := ⟨"f", "Q", .nil⟩

/-- Fixture serialize operation: maps the string bad to null, keeps
everything else. -/
def fixSerialize : JValue → JValue := fun v =>
  match v with
  | .vStr s => if s == "bad" then .vNull else .vStr s
  | w => w

/-- Fixture schema: scalar S and query root Q with one field hello of
type S resolving to the string world. -/
def fixSchema : Schema :=
  ⟨[("S", .scalarT fixSerialize),
    ("Q", .objectT
      [("hello", ⟨.named "S", some (fun _ _ _ _ => .returns (.value (.vStr "world")))⟩)]
      none)],
   "Q", none, none⟩

/-- Fixture execution context over fixSchema. -/
def fixCtx : ExecutionContext :=
  ⟨fixSchema, [], .vNull, .vNull, ⟨"query", none, []⟩, .vNull, defaultFieldResolver⟩

/-- Fixture field node with no arguments and no sub-selections. -/
def fixFieldNode : FieldNode := ⟨none, "f", [], .ok .vNull, none⟩

/-- Fixture fragment mapping for C2: a single fragment F on Q selecting
the field x. -/
def c2Fragments : List (String × FragmentDef) :=
  [("F", ⟨some "Q", [.field none "x" [] (.ok .vNull) none]⟩)]

/-- Fixture selections for C2: the same fragment spread twice, the
first excluded by a skip directive. -/
def c2Selections : List Selection :=
  [.fragmentSpread "F" [⟨"skip", true⟩], .fragmentSpread "F" []]

/-- Fixture isTypeOf predicate accepting exactly one string value. -/
def acceptsStr (s : String) : IsTypeOfFn := fun v _ =>
  match v with
  | .vStr t => t == s
  | _ => false

/-- Fixture schema for C5: union U over object types A and B with
isTypeOf predicates, and an interface I whose resolveType names A. -/
def c5Schema : Schema :=
  ⟨[("A", .objectT [] (some (acceptsStr "a"))),
    ("B", .objectT [] (some (acceptsStr "b"))),
    ("S", .scalarT fixSerialize),
    ("U", .unionT none ["A", "B"]),
    ("I", .interfaceT (some (fun _ _ => .rtName "S")) ["A"])],
   "Q", none, none⟩

/-- Fixture execution context over c5Schema. -/
def c5Ctx : ExecutionContext :=
  ⟨c5Schema, [], .vNull, .vNull, ⟨"query", none, []⟩, .vNull, defaultFieldResolver⟩

/-- Fixture operations for C6: two anonymous query operations. -/
def c6Document : List Definition :=
  [.operationDef ⟨"query", some "a", []⟩, .operationDef ⟨"query", some "b", []⟩]

/-! Theorems -/

/-- C3: directive evaluation gives skip precedence over include: a
present skip directive whose coerced if argument is true excludes the
node regardless of any include directive; otherwise a present include
directive includes the node exactly when its coerced if argument is
true; absent both directives the node is included. -/
theorem C3_skip_include_precedence :
    (∀ dirs d, dirs.find? (fun x => x.name == "skip") = some d → d.ifArg = true →
      shouldIncludeNode dirs = false)
    ∧ (∀ dirs i, (∀ d, dirs.find? (fun x => x.name == "skip") = some d → d.ifArg = false) →
      dirs.find? (fun x => x.name == "include") = some i →
      (shouldIncludeNode dirs = true ↔ i.ifArg = true))
    ∧ (∀ dirs, dirs.find? (fun x => x.name == "skip") = none →
      dirs.find? (fun x => x.name == "include") = none →
      shouldIncludeNode dirs = true) := by
  refine ⟨?_, ?_, ?_⟩
  · intro dirs d hfind hif
    simp [shouldIncludeNode, hfind, hif]
  · intro dirs i hskip hinc
    unfold shouldIncludeNode
    cases hfs : dirs.find? (fun x => x.name == "skip") with
    | none =>
      cases hb : i.ifArg <;> simp [hinc, hb]
    | some d =>
      have hd := hskip d hfs
      cases hb : i.ifArg <;> simp [hd, hinc, hb]
  · intro dirs hs hi
    simp [shouldIncludeNode, hs, hi]

/-- Witness for C3 at concrete directive lists: skip true plus include
true excludes; skip false plus include false excludes; include true
alone includes; no directives include. -/
theorem C3_skip_include_precedence_witness :
    shouldIncludeNode [⟨"skip", true⟩, ⟨"include", true⟩] = false
    ∧ shouldIncludeNode [⟨"skip", false⟩, ⟨"include", false⟩] = false
    ∧ shouldIncludeNode [⟨"include", true⟩] = true
    ∧ shouldIncludeNode [] = true := by
  refine ⟨?_, ?_, ?_, ?_⟩
  · exact C3_skip_include_precedence.1 _ ⟨"skip", true⟩ rfl rfl
  · have h := (C3_skip_include_precedence.2.1 [⟨"skip", false⟩, ⟨"include", false⟩]
      ⟨"include", false⟩ (by intro d hd; cases Option.some.inj hd; rfl) rfl)
    revert h
    cases hv : shouldIncludeNode [⟨"skip", false⟩, ⟨"include", false⟩] <;> simp
  · exact (C3_skip_include_precedence.2.1 [⟨"include", true⟩] ⟨"include", true⟩
      (by intro d hd; cases hd) rfl).mpr rfl
  · exact C3_skip_include_precedence.2.2 [] rfl rfl

/-- C9: a resolver throw is captured as a value rather than propagated:
a thrown Error object is returned as an error value, a thrown
non-Error value is wrapped into a generic Error value carrying its
string rendering before any propagation, and value completion
re-raises a captured error value so it enters the error list through
the uniform located-error machinery. -/
theorem C9_resolver_throw_captured :
    (∀ (fieldNode : FieldNode) (resolveFn : Resolver) (source contextValue : JValue)
        (info : Info) (args : JValue) (e : GError),
      fieldNode.argsOutcome = .ok args →
      resolveFn source args contextValue info = .throws (.errObj e) →
      resolveFieldValueOrError fieldNode resolveFn source contextValue info
        = (.errorVal e, [(responsePathAsArray info.path, info.fieldName)]))
    ∧ (∀ (fieldNode : FieldNode) (resolveFn : Resolver) (source contextValue : JValue)
        (info : Info) (args : JValue) (v : JValue),
      fieldNode.argsOutcome = .ok args →
      resolveFn source args contextValue info = .throws (.other v) →
      resolveFieldValueOrError fieldNode resolveFn source contextValue info
        = (.errorVal (.plain (jstr v)), [(responsePathAsArray info.path, info.fieldName)]))
    ∧ (∀ (fuel : Nat) (ctx : ExecutionContext) (rt : TypeRef) (fn : List FieldNode)
        (info : Info) (path : ResponsePath) (e : GError),
      completeValue fuel ctx rt fn info path (.errorVal e) = ⟨.error (.gerr e), [], []⟩) := by
  refine ⟨?_, ?_, ?_⟩
  · intro fieldNode resolveFn source contextValue info args e hargs hthrow
    simp [resolveFieldValueOrError, hargs, hthrow]
  · intro fieldNode resolveFn source contextValue info args v hargs hthrow
    simp [resolveFieldValueOrError, hargs, hthrow]
  · intro fuel ctx rt fn info path e
    simp [completeValue]

/-- Witness for C9: a resolver throwing the Error boom yields it as a
captured value, a resolver throwing the bare number 7 yields a generic
Error whose message is its rendering, and completion re-raises the
captured error. -/
theorem C9_resolver_throw_captured_witness :
    resolveFieldValueOrError fixFieldNode (fun _ _ _ _ => .throws (.errObj (.plain "boom")))
        .vNull .vNull fixInfo = (.errorVal (.plain "boom"), [([], "f")])
    ∧ resolveFieldValueOrError fixFieldNode (fun _ _ _ _ => .throws (.other (.vInt 7)))
        .vNull .vNull fixInfo = (.errorVal (.plain "7"), [([], "f")])
    ∧ completeValue 0 fixCtx (.named "S") [] fixInfo .nil (.errorVal (.plain "boom"))
        = ⟨.error (.gerr (.plain "boom")), [], []⟩ := by
  refine ⟨?_, ?_, ?_⟩
  · have h := C9_resolver_throw_captured.1 fixFieldNode
      (fun _ _ _ _ => .throws (.errObj (.plain "boom"))) .vNull .vNull fixInfo .vNull
      (.plain "boom") rfl rfl
    simpa [fixInfo, responsePathAsArray, responsePathWalk] using h
  · have h := C9_resolver_throw_captured.2.1 fixFieldNode
      (fun _ _ _ _ => .throws (.other (.vInt 7))) .vNull .vNull fixInfo .vNull
      (.vInt 7) rfl rfl
    simpa [fixInfo, responsePathAsArray, responsePathWalk, jstr] using h
  · exact C9_resolver_throw_captured.2.2 0 fixCtx (.named "S") [] fixInfo .nil (.plain "boom")

/-- C4: completion of a leaf (scalar or enum) return type on a
non-null-like raw result invokes the declared serialize operation on
the raw result; a null-like serialized result fails with an error
naming the declared type and the offending result, and otherwise the
serialized result itself is produced, never a silent null. -/
theorem C4_leaf_serialization (fuel : Nat) (ctx : ExecutionContext) (n : String)
    (td : TypeDef) (ser : JValue → JValue) (fn : List FieldNode) (info : Info)
    (path : ResponsePath) (v : JValue)
    (hget : ctx.schema.getType n = some td) (hser : td.serializeOf = some ser)
    (hnn : isNullish v = false) :
    (isNullish (ser v) = true →
      completeValue fuel ctx (.named n) fn info path (.value v)
        = ⟨.error (.gerr (.plain ("Expected a value of type \"" ++ n
            ++ "\" but received: " ++ jstr v))), [], []⟩)
    ∧ (isNullish (ser v) = false →
      completeValue fuel ctx (.named n) fn info path (.value v) = ⟨.ok (ser v), [], []⟩) := by
  cases td with
  | scalarT s =>
    simp only [TypeDef.serializeOf, Option.some.injEq] at hser
    subst hser
    constructor
    · intro hnull
      simp [completeValue, hget, hnn, completeLeafValue, hnull, Except.mapError]
    · intro hnotnull
      simp [completeValue, hget, hnn, completeLeafValue, hnotnull, Except.mapError]
  | enumT s =>
    simp only [TypeDef.serializeOf, Option.some.injEq] at hser
    subst hser
    constructor
    · intro hnull
      simp [completeValue, hget, hnn, completeLeafValue, hnull, Except.mapError]
    · intro hnotnull
      simp [completeValue, hget, hnn, completeLeafValue, hnotnull, Except.mapError]
  | objectT flds iso => simp [TypeDef.serializeOf] at hser
  | interfaceT rt pts => simp [TypeDef.serializeOf] at hser
  | unionT rt pts => simp [TypeDef.serializeOf] at hser

/-- Witness for C4 over the fixture scalar S: serializing the string
bad yields null and completion fails with the naming error, while the
number 5 serializes to itself. -/
theorem C4_leaf_serialization_witness :
    completeValue 0 fixCtx (.named "S") [] fixInfo .nil (.value (.vStr "bad"))
      = ⟨.error (.gerr (.plain "Expected a value of type \"S\" but received: bad")), [], []⟩
    ∧ completeValue 0 fixCtx (.named "S") [] fixInfo .nil (.value (.vInt 5))
      = ⟨.ok (.vInt 5), [], []⟩ := by
  constructor
  · have h := (C4_leaf_serialization 0 fixCtx "S" (.scalarT fixSerialize) fixSerialize
      [] fixInfo .nil (.vStr "bad") rfl rfl rfl).1 (by simp [fixSerialize, isNullish])
    simpa [fixSerialize, jstr] using h
  · have h := (C4_leaf_serialization 0 fixCtx "S" (.scalarT fixSerialize) fixSerialize
      [] fixInfo .nil (.vInt 5) rfl rfl rfl).2 (by simp [fixSerialize, isNullish])
    simpa [fixSerialize] using h

/-- C1: a completion failure under a non-null declared type is not
caught at that level: the non-null isolation layer is the unprotected
located-error call (so it appends nothing), the non-null unwrapping in
completeValue propagates a thrown failure unchanged without recording
it, and the first enclosing isolation layer whose declared type is not
non-null catches the failure, appends it to the error list exactly
once, and makes that position null. -/
theorem C1_nonnull_error_propagation :
    (∀ (fuel : Nat) (ctx : ExecutionContext) (t : TypeRef) (fn : List FieldNode)
        (info : Info) (path : ResponsePath) (r : RawResult),
      completeValueCatchingError fuel ctx (.nonNull t) fn info path r
        = completeValueWithLocatedError fuel ctx (.nonNull t) fn info path r)
    ∧ (∀ (fuel : Nat) (ctx : ExecutionContext) (t : TypeRef) (fn : List FieldNode)
        (info : Info) (path : ResponsePath) (v : JValue) (e : Err)
        (errs : List GError) (calls : List CallEv),
      completeValue fuel ctx t fn info path (.value v) = ⟨.error e, errs, calls⟩ →
      completeValue fuel ctx (.nonNull t) fn info path (.value v) = ⟨.error e, errs, calls⟩)
    ∧ (∀ (fuel : Nat) (ctx : ExecutionContext) (rt : TypeRef) (fn : List FieldNode)
        (info : Info) (path : ResponsePath) (r : RawResult) (e : GError)
        (errs : List GError) (calls : List CallEv),
      rt.isNonNull = false →
      completeValueWithLocatedError fuel ctx rt fn info path r = ⟨.error (.gerr e), errs, calls⟩ →
      completeValueCatchingError fuel ctx rt fn info path r
        = ⟨.ok .vNull, errs ++ [e], calls⟩) := by
  refine ⟨?_, ?_, ?_⟩
  · intro fuel ctx t fn info path r
    simp [completeValueCatchingError]
  · intro fuel ctx t fn info path v e errs calls h
    simp [completeValue, h]
  · intro fuel ctx rt fn info path r e errs calls hnn h
    cases rt with
    | nonNull t => simp [TypeRef.isNonNull] at hnn
    | list t => simp [completeValueCatchingError, h]
    | named n => simp [completeValueCatchingError, h]

/-- Witness for C1: completing a value against the unknown type Nope
throws; under a non-null wrapper the catching layer is transparent and
appends nothing, while at the nullable level the same failure is
appended exactly once and the position becomes null. -/
theorem C1_nonnull_error_propagation_witness :
    completeValueCatchingError 0 fixCtx (.nonNull (.named "Nope")) [] fixInfo .nil
        (.value (.vBool true))
      = completeValueWithLocatedError 0 fixCtx (.nonNull (.named "Nope")) [] fixInfo .nil
        (.value (.vBool true))
    ∧ completeValue 0 fixCtx (.nonNull (.named "Nope")) [] fixInfo .nil (.value (.vBool true))
      = ⟨.error (.gerr (.plain "Cannot complete value of unexpected type \"Nope\".")), [], []⟩
    ∧ completeValueCatchingError 0 fixCtx (.named "Nope") [] fixInfo .nil (.value (.vBool true))
      = ⟨.ok .vNull,
         [.located "Cannot complete value of unexpected type \"Nope\"." []], []⟩ := by
  refine ⟨?_, ?_, ?_⟩
  · exact C1_nonnull_error_propagation.1 0 fixCtx (.named "Nope") [] fixInfo .nil
      (.value (.vBool true))
  · exact C1_nonnull_error_propagation.2.1 0 fixCtx (.named "Nope") [] fixInfo .nil
      (.vBool true) (.gerr (.plain "Cannot complete value of unexpected type \"Nope\"."))
      [] []
      (by simp [completeValue, fixCtx, fixSchema, Schema.getType, isNullish])
  · have h := C1_nonnull_error_propagation.2.2 0 fixCtx (.named "Nope") [] fixInfo .nil
      (.value (.vBool true))
      (.located "Cannot complete value of unexpected type \"Nope\"." []) [] []
      rfl
      (by simp [completeValueWithLocatedError, completeValue, fixCtx, fixSchema,
            Schema.getType, isNullish, locatedError, GError.message,
            responsePathAsArray, responsePathWalk])
    simpa using h

/-- Counterexample to C2 as stated: in the source, a fragment spread
excluded by directive evaluation is checked before the name is marked
visited, so the excluded spread leaves the name unvisited.  On the
spread of F with skip true followed by a plain spread of F, the source
collects the field x of F, while the claim ordering (mark visited
before the directive check) collects nothing. -/
theorem C2_spread_visited_order_counterexample :
    (collectFields 9 fixSchema c2Fragments "Q" c2Selections [] []).map
        (fun p => (p.1.map Prod.fst, p.2)) = some (["x"], ["F"])
    ∧ (claimCollectFields 9 fixSchema c2Fragments "Q" c2Selections [] []).map
        (fun p => (p.1.map Prod.fst, p.2)) = some ([], ["F"])
    ∧ (collectFields 9 fixSchema c2Fragments "Q" c2Selections [] []).map
        (fun p => (p.1.map Prod.fst, p.2))
      ≠ (claimCollectFields 9 fixSchema c2Fragments "Q" c2Selections [] []).map
        (fun p => (p.1.map Prod.fst, p.2)) := by
  refine ⟨?eq1, ?eq2, ?ne⟩
  case eq1 =>
    simp [collectFields, c2Fragments, c2Selections, shouldIncludeNode,
      doesFragmentConditionMatch, fixSchema, Schema.getType, getFieldEntryKey,
      groupingInsert]
  case eq2 =>
    simp [claimCollectFields, c2Fragments, c2Selections, shouldIncludeNode,
      doesFragmentConditionMatch, fixSchema, Schema.getType, getFieldEntryKey,
      groupingInsert]
  case ne =>
    simp [collectFields, claimCollectFields, c2Fragments, c2Selections,
      shouldIncludeNode, doesFragmentConditionMatch, fixSchema, Schema.getType,
      getFieldEntryKey, groupingInsert]

/-- C2 as amended: a fragment spread is skipped, with the visited set
unchanged, when the fragment name is already visited or when the
spread is excluded by directive evaluation (so an excluded spread does
not mark the name visited); otherwise the name is marked visited, and
then the spread is skipped when the referenced fragment is undefined
or its type condition does not match the runtime type; otherwise
collection recurses into the fragment's selection set with the same
grouping and visited accumulators before continuing. -/
theorem C2_spread_collection_amended :
    (∀ (fuel : Nat) (schema : Schema) (fragments : List (String × FragmentDef))
        (rt fragName : String) (dirs : List Directive) (rest : List Selection)
        (fields : Grouping) (visited : List String),
      visited.contains fragName = true →
      collectFields fuel schema fragments rt (.fragmentSpread fragName dirs :: rest)
          fields visited
        = collectFields fuel schema fragments rt rest fields visited)
    ∧ (∀ (fuel : Nat) (schema : Schema) (fragments : List (String × FragmentDef))
        (rt fragName : String) (dirs : List Directive) (rest : List Selection)
        (fields : Grouping) (visited : List String),
      shouldIncludeNode dirs = false →
      collectFields fuel schema fragments rt (.fragmentSpread fragName dirs :: rest)
          fields visited
        = collectFields fuel schema fragments rt rest fields visited)
    ∧ (∀ (fuel : Nat) (schema : Schema) (fragments : List (String × FragmentDef))
        (rt fragName : String) (dirs : List Directive) (rest : List Selection)
        (fields : Grouping) (visited : List String),
      visited.contains fragName = false → shouldIncludeNode dirs = true →
      fragments.find? (fun p => p.1 == fragName) = none →
      collectFields fuel schema fragments rt (.fragmentSpread fragName dirs :: rest)
          fields visited
        = collectFields fuel schema fragments rt rest fields (fragName :: visited))
    ∧ (∀ (fuel : Nat) (schema : Schema) (fragments : List (String × FragmentDef))
        (rt fragName : String) (dirs : List Directive) (rest : List Selection)
        (fields : Grouping) (visited : List String) (frag : FragmentDef),
      visited.contains fragName = false → shouldIncludeNode dirs = true →
      (fragments.find? (fun p => p.1 == fragName)).map (·.2) = some frag →
      doesFragmentConditionMatch schema frag.typeCondition rt = false →
      collectFields fuel schema fragments rt (.fragmentSpread fragName dirs :: rest)
          fields visited
        = collectFields fuel schema fragments rt rest fields (fragName :: visited))
    ∧ (∀ (fuel : Nat) (schema : Schema) (fragments : List (String × FragmentDef))
        (rt fragName : String) (dirs : List Directive) (rest : List Selection)
        (fields : Grouping) (visited : List String) (frag : FragmentDef)
        (f2 : Grouping) (v2 : List String),
      visited.contains fragName = false → shouldIncludeNode dirs = true →
      (fragments.find? (fun p => p.1 == fragName)).map (·.2) = some frag →
      doesFragmentConditionMatch schema frag.typeCondition rt = true →
      fuel ≠ 0 →
      collectFields (fuel - 1) schema fragments rt frag.selectionSet fields
          (fragName :: visited) = some (f2, v2) →
      collectFields fuel schema fragments rt (.fragmentSpread fragName dirs :: rest)
          fields visited
        = collectFields fuel schema fragments rt rest f2 v2) := by
  refine ⟨?_, ?_, ?_, ?_, ?_⟩
  · intro fuel schema fragments rt fragName dirs rest fields visited hvis
    simp only [collectFields]
    rw [if_pos
      (show (visited.contains fragName || !shouldIncludeNode dirs) = true by
        rw [hvis]; rfl)]
  · intro fuel schema fragments rt fragName dirs rest fields visited hinc
    simp only [collectFields]
    rw [if_pos
      (show (visited.contains fragName || !shouldIncludeNode dirs) = true by
        rw [hinc]; simp)]
  · intro fuel schema fragments rt fragName dirs rest fields visited hvis hinc hfind
    simp only [collectFields]
    rw [if_neg
      (show ¬(visited.contains fragName || !shouldIncludeNode dirs) = true by
        rw [hvis, hinc]; simp)]
    simp [hfind]
  · intro fuel schema fragments rt fragName dirs rest fields visited frag hvis hinc hfind hcond
    simp only [collectFields]
    rw [if_neg
      (show ¬(visited.contains fragName || !shouldIncludeNode dirs) = true by
        rw [hvis, hinc]; simp)]
    simp [hfind, hcond]
  · intro fuel schema fragments rt fragName dirs rest fields visited frag f2 v2
      hvis hinc hfind hcond hfuel hrec
    simp only [collectFields]
    rw [if_neg
      (show ¬(visited.contains fragName || !shouldIncludeNode dirs) = true by
        rw [hvis, hinc]; simp)]
    simp [hfind, hcond, hfuel, hrec]

/-- Witness for the amended C2 at concrete inputs: an already-visited
spread skips; a directive-excluded spread skips without marking; an
undefined fragment marks and skips; a failing type condition marks and
skips; a matching spread recurses into the fragment before the rest. -/
theorem C2_spread_collection_amended_witness :
    collectFields 3 fixSchema c2Fragments "Q" [.fragmentSpread "F" []] [] ["F"]
      = collectFields 3 fixSchema c2Fragments "Q" [] [] ["F"]
    ∧ collectFields 3 fixSchema c2Fragments "Q"
        [.fragmentSpread "F" [⟨"skip", true⟩]] [] []
      = collectFields 3 fixSchema c2Fragments "Q" [] [] []
    ∧ collectFields 3 fixSchema c2Fragments "Q" [.fragmentSpread "G" []] [] []
      = collectFields 3 fixSchema c2Fragments "Q" [] [] ["G"]
    ∧ collectFields 3 fixSchema [("F", ⟨some "S", []⟩)] "Q" [.fragmentSpread "F" []] [] []
      = collectFields 3 fixSchema [("F", ⟨some "S", []⟩)] "Q" [] [] ["F"]
    ∧ collectFields 3 fixSchema c2Fragments "Q" [.fragmentSpread "F" []] [] []
      = collectFields 3 fixSchema c2Fragments "Q" []
          [("x", [⟨none, "x", [], .ok .vNull, none⟩])] ["F"] := by
  refine ⟨?_, ?_, ?_, ?_, ?_⟩
  · exact C2_spread_collection_amended.1 3 fixSchema c2Fragments "Q" "F" [] [] [] ["F"] rfl
  · exact C2_spread_collection_amended.2.1 3 fixSchema c2Fragments "Q" "F"
      [⟨"skip", true⟩] [] [] [] rfl
  · exact C2_spread_collection_amended.2.2.1 3 fixSchema c2Fragments "Q" "G" [] [] [] []
      rfl rfl rfl
  · exact C2_spread_collection_amended.2.2.2.1 3 fixSchema [("F", ⟨some "S", []⟩)] "Q" "F"
      [] [] [] [] ⟨some "S", []⟩ rfl rfl rfl
      (by simp [doesFragmentConditionMatch, fixSchema, Schema.getType, TypeDef.isAbstractType])
  · exact C2_spread_collection_amended.2.2.2.2 3 fixSchema c2Fragments "Q" "F" [] [] [] []
      ⟨some "Q", [.field none "x" [] (.ok .vNull) none]⟩
      [("x", [⟨none, "x", [], .ok .vNull, none⟩])] ["F"]
      rfl rfl (by simp [c2Fragments])
      (by simp [doesFragmentConditionMatch, fixSchema, Schema.getType])
      (by simp)
      (by simp [collectFields, shouldIncludeNode, getFieldEntryKey, groupingInsert])

/-- C8: a field name with no field definition on the parent type,
after the special-casing of __schema and __type on the query root type
only and __typename on every type, is omitted entirely from the
output: getFieldDef yields nothing, resolveField yields the no-entry
result with no error recorded and no resolver invoked, and the driver
leaves the response key absent from the output object rather than
setting it to null. -/
theorem C8_unknown_field_omitted :
    (∀ (schema : Schema) (parentType fieldName : String)
        (flds : List (String × FieldDef)) (iso : Option IsTypeOfFn),
      fieldName ≠ "__typename" →
      (fieldName = "__schema" → schema.queryType ≠ parentType) →
      (fieldName = "__type" → schema.queryType ≠ parentType) →
      schema.getType parentType = some (.objectT flds iso) →
      flds.find? (fun p => p.1 == fieldName) = none →
      getFieldDef schema parentType fieldName = none)
    ∧ (∀ (fuel : Nat) (ctx : ExecutionContext) (parentType : String) (source : JValue)
        (fieldNodes : List FieldNode) (path : ResponsePath),
      getFieldDef ctx.schema parentType (fieldNodes.headD emptyFieldNode).name = none →
      resolveField fuel ctx parentType source fieldNodes path = ⟨.ok none, [], []⟩)
    ∧ (∀ (fuel : Nat) (ctx : ExecutionContext) (parentType : String) (source : JValue)
        (path : ResponsePath) (fields : Grouping) (key : String)
        (l : List (String × JValue)) (errs : List GError) (calls : List CallEv),
      (∀ ns, (key, ns) ∈ fields →
        getFieldDef ctx.schema parentType (ns.headD emptyFieldNode).name = none) →
      executeFieldsEntries fuel ctx parentType source path fields = ⟨.ok l, errs, calls⟩ →
      ∀ v, (key, v) ∉ l) := by
  refine ⟨?_, ?_, ?_⟩
  · intro schema parentType fieldName flds iso hty hsch htyp hget hfind
    unfold getFieldDef
    rw [if_neg, if_neg, if_neg]
    · rw [hget]
      simp [hfind]
    · simp [hty]
    · intro h
      rw [Bool.and_eq_true, beq_iff_eq, beq_iff_eq] at h
      exact htyp h.1 h.2
    · intro h
      rw [Bool.and_eq_true, beq_iff_eq, beq_iff_eq] at h
      exact hsch h.1 h.2
  · intro fuel ctx parentType source fieldNodes path hdef
    have hdef2 : getFieldDef ctx.schema parentType
        ((fieldNodes.head?.getD emptyFieldNode).name) = none := by
      simpa using hdef
    simp [resolveField, hdef2]
  · intro fuel ctx parentType source path fields
    induction fields with
    | nil =>
      intro key l errs calls hall hrun v
      simp only [executeFieldsEntries] at hrun
      cases hrun
      simp
    | cons e rest ih =>
      intro key l errs calls hall hrun v hmem
      obtain ⟨k, ns⟩ := e
      by_cases hk : k = key
      · subst hk
        have hdef := hall ns (List.mem_cons_self _ _)
        have hdef2 : getFieldDef ctx.schema parentType
            ((ns.head?.getD emptyFieldNode).name) = none := by
          simpa using hdef
        have hres : resolveField fuel ctx parentType source ns (addPath path (.fname k))
            = ⟨.ok none, [], []⟩ := by
          simp [resolveField, hdef2]
        simp only [executeFieldsEntries, hres] at hrun
        cases hrek : executeFieldsEntries fuel ctx parentType source path rest with
        | mk rres rerrs rcalls =>
          rw [hrek] at hrun
          have h1 : rres = .ok l := congrArg Out.res hrun
          exact ih k l rerrs rcalls (fun ns2 h2 => hall ns2 (List.mem_cons_of_mem _ h2))
            (by rw [hrek, h1]) v hmem
      · simp only [executeFieldsEntries] at hrun
        revert hrun
        cases hres : (resolveField fuel ctx parentType source ns
            (addPath path (.fname k))).res with
        | error er => intro hrun; cases hrun
        | ok o =>
          cases o with
          | none =>
            intro hrun
            cases hrek : executeFieldsEntries fuel ctx parentType source path rest with
            | mk rres rerrs rcalls =>
              rw [hrek] at hrun
              cases hrun
              exact ih key _ _ _ (fun ns2 h2 => hall ns2 (List.mem_cons_of_mem _ h2))
                (by rw [hrek]) v hmem
          | some w =>
            intro hrun
            cases hrek : executeFieldsEntries fuel ctx parentType source path rest with
            | mk rres rerrs rcalls =>
              rw [hrek] at hrun
              cases rres with
              | error er2 => cases hrun
              | ok l2 =>
                cases hrun
                rcases List.mem_cons.mp hmem with heq | hmem2
                · exact hk (congrArg Prod.fst heq).symm
                · exact ih key _ _ _ (fun ns2 h2 => hall ns2 (List.mem_cons_of_mem _ h2))
                    (by rw [hrek]) v hmem2

/-- Witness for C8: the unknown field boyhowdy on the query root Q is
looked up as absent, resolves to the no-entry result with no error and
no resolver call, and its key is absent from the executed output. -/
theorem C8_unknown_field_omitted_witness :
    getFieldDef fixSchema "Q" "boyhowdy" = none
    ∧ resolveField 1 fixCtx "Q" .vNull [⟨none, "boyhowdy", [], .ok .vNull, none⟩] .nil
      = ⟨.ok none, [], []⟩
    ∧ (∀ v, ("boyhowdy", v) ∉
        ([] : List (String × JValue))) := by
  refine ⟨?_, ?_, ?_⟩
  · exact C8_unknown_field_omitted.1 fixSchema "Q" "boyhowdy"
      [("hello", ⟨.named "S", some (fun _ _ _ _ => .returns (.value (.vStr "world")))⟩)]
      none (by decide) (fun h => absurd h (by decide)) (fun h => absurd h (by decide)) rfl rfl
  · exact C8_unknown_field_omitted.2.1 1 fixCtx "Q" .vNull
      [⟨none, "boyhowdy", [], .ok .vNull, none⟩] .nil
      (C8_unknown_field_omitted.1 fixCtx.schema "Q" "boyhowdy"
        [("hello", ⟨.named "S", some (fun _ _ _ _ => .returns (.value (.vStr "world")))⟩)]
        none (by decide) (fun h => absurd h (by decide)) (fun h => absurd h (by decide)) rfl rfl)
  · exact C8_unknown_field_omitted.2.2 1 fixCtx "Q" .vNull .nil
      [("boyhowdy", [⟨none, "boyhowdy", [], .ok .vNull, none⟩])] "boyhowdy" [] [] []
      (by
        intro ns hns
        simp only [List.mem_cons, List.not_mem_nil, or_false] at hns
        cases hns
        exact C8_unknown_field_omitted.1 fixCtx.schema "Q" "boyhowdy"
          [("hello", ⟨.named "S", some (fun _ _ _ _ => .returns (.value (.vStr "world")))⟩)]
          none (by decide) (fun h => absurd h (by decide)) (fun h => absurd h (by decide)) rfl rfl)
      (by
        simp [executeFieldsEntries, resolveField, getFieldDef, fixCtx, fixSchema,
          Schema.getType])

/-- Probing loop characterization: the default strategy returns the
first possible type whose isTypeOf predicate accepts the value. -/
theorem defaultResolveTypeGo_eq_find (schema : Schema) (v c : JValue) :
    ∀ pts : List String,
    defaultResolveTypeGo schema v c pts
      = match pts.find? (fun t =>
          match schema.getType t with
          | some (.objectT _ (some pred)) => pred v c
          | _ => false) with
        | some t => .rtType t
        | none => .rtNone := by
  intro pts
  induction pts with
  | nil => simp [defaultResolveTypeGo]
  | cons t rest ih =>
    simp only [defaultResolveTypeGo, List.find?]
    cases hg : schema.getType t with
    | none => simpa [hg] using ih
    | some td =>
      cases td with
      | scalarT s => simpa [hg] using ih
      | enumT s => simpa [hg] using ih
      | interfaceT rt pts2 => simpa [hg] using ih
      | unionT rt pts2 => simpa [hg] using ih
      | objectT flds iso =>
        cases iso with
        | none => simpa [hg] using ih
        | some pred =>
          cases hp : pred v c with
          | false => simpa [hg, hp] using ih
          | true => simp [hg, hp]

/-- C5: abstract-type completion determines the runtime type via the
declared resolveType when present, else via the default strategy that
probes the possible types in schema-declared order and takes the first
whose predicate accepts the result (no acceptance leaves the type
undetermined and completion fails); a returned name string is resolved
via schema lookup (a type reference behaves as its schema name);
validation succeeds exactly when the resolved name denotes a concrete
object type that the schema admits as possible for the abstract type,
the success value being that name, and an undetermined runtime type
fails with the must-resolve error. -/
theorem C5_abstract_runtime_resolution :
    (∀ (schema : Schema) (v c : JValue) (a : String),
      defaultResolveTypeFn v c schema a
        = match (schema.getPossibleTypes a).find? (fun t =>
            match schema.getType t with
            | some (.objectT _ (some pred)) => pred v c
            | _ => false) with
          | some t => .rtType t
          | none => .rtNone)
    ∧ (∀ (fuel : Nat) (ctx : ExecutionContext) (a : String) (td : TypeDef)
        (rtfn : ResolveTypeFn) (fn : List FieldNode) (info : Info) (path : ResponsePath)
        (v : JValue),
      td.resolveTypeOf = some rtfn →
      completeAbstractValue fuel ctx a td fn info path v
        = match ensureValidRuntimeType (rtfn v ctx.contextValue) ctx.schema a info v with
          | .error e => ⟨.error (.gerr e), [], []⟩
          | .ok rt => completeObjectValue fuel ctx rt fn info path v)
    ∧ (∀ (fuel : Nat) (ctx : ExecutionContext) (a : String) (td : TypeDef)
        (fn : List FieldNode) (info : Info) (path : ResponsePath) (v : JValue),
      td.resolveTypeOf = none →
      completeAbstractValue fuel ctx a td fn info path v
        = match ensureValidRuntimeType
              (defaultResolveTypeFn v ctx.contextValue ctx.schema a) ctx.schema a info v with
          | .error e => ⟨.error (.gerr e), [], []⟩
          | .ok rt => completeObjectValue fuel ctx rt fn info path v)
    ∧ (∀ (schema : Schema) (a : String) (info : Info) (res : JValue) (n : String),
      ensureValidRuntimeType (.rtType n) schema a info res
        = ensureValidRuntimeType (.rtName n) schema a info res)
    ∧ (∀ (schema : Schema) (a : String) (info : Info) (res : JValue) (s : String),
      (∃ t, ensureValidRuntimeType (.rtName s) schema a info res = .ok t) ↔
        ((∃ td, schema.getType s = some td ∧ td.isObjectType = true)
          ∧ schema.isPossibleType a s = true))
    ∧ (∀ (schema : Schema) (a : String) (info : Info) (res : JValue) (s t : String),
      ensureValidRuntimeType (.rtName s) schema a info res = .ok t → t = s)
    ∧ (∀ (schema : Schema) (a : String) (info : Info) (res : JValue),
      ensureValidRuntimeType .rtNone schema a info res
        = .error (.plain ("Abstract type " ++ a
            ++ " must resolve to an Object type at runtime for field " ++ info.parentType
            ++ "." ++ info.fieldName ++ " with value \"" ++ jstr res
            ++ "\", received \"undefined\"."))) := by
  refine ⟨?_, ?_, ?_, ?_, ?_, ?_, ?_⟩
  · intro schema v c a
    exact defaultResolveTypeGo_eq_find schema v c (schema.getPossibleTypes a)
  · intro fuel ctx a td rtfn fn info path v hrt
    cases td with
    | interfaceT rt pts =>
      simp only [TypeDef.resolveTypeOf] at hrt
      subst hrt
      simp [completeAbstractValue]
    | unionT rt pts =>
      simp only [TypeDef.resolveTypeOf] at hrt
      subst hrt
      simp [completeAbstractValue]
    | scalarT s => simp [TypeDef.resolveTypeOf] at hrt
    | enumT s => simp [TypeDef.resolveTypeOf] at hrt
    | objectT flds iso => simp [TypeDef.resolveTypeOf] at hrt
  · intro fuel ctx a td fn info path v hrt
    cases td with
    | interfaceT rt pts =>
      simp only [TypeDef.resolveTypeOf] at hrt
      subst hrt
      simp [completeAbstractValue]
    | unionT rt pts =>
      simp only [TypeDef.resolveTypeOf] at hrt
      subst hrt
      simp [completeAbstractValue]
    | scalarT s => simp [completeAbstractValue]
    | enumT s => simp [completeAbstractValue]
    | objectT flds iso => simp [completeAbstractValue]
  · intro schema a info res n
    rfl
  · intro schema a info res s
    unfold ensureValidRuntimeType
    cases hg : schema.getType s with
    | none => simp [hg]
    | some td =>
      cases hio : td.isObjectType with
      | false => simp [hg, hio]
      | true =>
        cases hp : schema.isPossibleType a s with
        | false => simp [hg, hio, hp]
        | true => simp [hg, hio, hp]
  · intro schema a info res s t
    unfold ensureValidRuntimeType
    cases hg : schema.getType s with
    | none => simp [hg]
    | some td =>
      cases hio : td.isObjectType with
      | false => simp [hg, hio]
      | true =>
        cases hp : schema.isPossibleType a s with
        | false => simp [hg, hio, hp]
        | true =>
          simp only [hg, hio, hp, if_true]
          intro h
          cases h
          rfl
  · intro schema a info res
    rfl

/-- Witness for C5 over c5Schema: the interface I's declared
resolveType names the scalar S, which schema lookup rejects as a
non-object runtime type; the union U without resolveType probes A then
B and completes the value b as an empty B object; and a value no
predicate accepts leaves the runtime type undetermined and fails. -/
theorem C5_abstract_runtime_resolution_witness :
    completeAbstractValue 1 c5Ctx "I" (.interfaceT (some (fun _ _ => .rtName "S")) ["A"])
        [] fixInfo .nil (.vStr "a")
      = ⟨.error (.gerr (.plain ("Abstract type I must resolve to an Object type at "
          ++ "runtime for field Q.f with value \"a\", received \"S\"."))), [], []⟩
    ∧ completeAbstractValue 0 c5Ctx "U" (.unionT none ["A", "B"]) [] fixInfo .nil (.vStr "b")
      = ⟨.ok (.vObj []), [], []⟩
    ∧ completeAbstractValue 0 c5Ctx "U" (.unionT none ["A", "B"]) [] fixInfo .nil (.vInt 9)
      = ⟨.error (.gerr (.plain ("Abstract type U must resolve to an Object type at "
          ++ "runtime for field Q.f with value \"9\", received \"undefined\"."))), [], []⟩ := by
  refine ⟨?_, ?_, ?_⟩
  · have h := C5_abstract_runtime_resolution.2.1 1 c5Ctx "I"
      (.interfaceT (some (fun _ _ => .rtName "S")) ["A"]) (fun _ _ => .rtName "S")
      [] fixInfo .nil (.vStr "a") rfl
    rw [h]
    simp [ensureValidRuntimeType, c5Ctx, c5Schema, Schema.getType, TypeDef.isObjectType,
      fixInfo, jstr]
  · have h := C5_abstract_runtime_resolution.2.2.1 0 c5Ctx "U" (.unionT none ["A", "B"])
      [] fixInfo .nil (.vStr "b") rfl
    rw [h]
    simp [defaultResolveTypeFn, defaultResolveTypeGo, ensureValidRuntimeType,
      completeObjectValue, collectAndExecuteSubfields, executeFields,
      executeFieldsEntries, c5Ctx, c5Schema, Schema.getType, Schema.getPossibleTypes,
      Schema.isPossibleType, TypeDef.isObjectType, acceptsStr, Except.map]
  · have h := C5_abstract_runtime_resolution.2.2.1 0 c5Ctx "U" (.unionT none ["A", "B"])
      [] fixInfo .nil (.vInt 9) rfl
    rw [h]
    simp [defaultResolveTypeFn, defaultResolveTypeGo, ensureValidRuntimeType,
      c5Ctx, c5Schema, Schema.getType, Schema.getPossibleTypes, TypeDef.isObjectType,
      acceptsStr, fixInfo, jstr]
    rfl

/-- Extending a response path appends its key to the path array. -/
theorem responsePathAsArray_addPath (p : ResponsePath) (k : PathKey) :
    responsePathAsArray (addPath p k) = responsePathAsArray p ++ [k] := by
  simp [responsePathAsArray, addPath, responsePathWalk]

/-- Every error escaping the located-error layer carries the response
path of that layer. -/
theorem completeValueWithLocatedError_error_shape (fuel : Nat) (ctx : ExecutionContext)
    (rt : TypeRef) (fn : List FieldNode) (info : Info) (path : ResponsePath)
    (r : RawResult) (e : GError) (errs : List GError) (calls : List CallEv)
    (h : completeValueWithLocatedError fuel ctx rt fn info path r
      = ⟨.error (.gerr e), errs, calls⟩) :
    ∃ m, e = .located m (responsePathAsArray path) := by
  revert h
  cases hc : completeValue fuel ctx rt fn info path r with
  | mk cres cerrs ccalls =>
    simp only [completeValueWithLocatedError, hc]
    cases cres with
    | ok v =>
      intro h
      have := congrArg Out.res h
      simp at this
    | error er =>
      cases er with
      | outOfFuel =>
        intro h
        have := congrArg Out.res h
        simp at this
      | gerr e0 =>
        intro h
        have hres := congrArg Out.res h
        simp only [Except.error.injEq, Err.gerr.injEq] at hres
        exact ⟨e0.message, hres ▸ rfl⟩

/-- List-element loop under all-successful element completions:
elements are completed left to right at their index paths and
collected in source order with no error appended. -/
theorem completeListItems_all_ok (fuel : Nat) (ctx : ExecutionContext) (t : TypeRef)
    (fn : List FieldNode) (info : Info) (path : ResponsePath) (ws : Nat → JValue) :
    ∀ (items : List JValue) (k : Nat),
    (∀ j, j < items.length →
      completeValueCatchingError fuel ctx t fn info (addPath path (.idx (k + j)))
        (.value (items.getD j .vNull)) = ⟨.ok (ws (k + j)), [], []⟩) →
    completeListItems fuel ctx t fn info path items k
      = ⟨.ok ((List.range items.length).map (fun j => ws (k + j))), [], []⟩ := by
  intro items
  induction items with
  | nil => intro k _; simp [completeListItems]
  | cons item rest ih =>
    intro k h
    have h0 := h 0 (by simp)
    simp only [Nat.add_zero, List.getD_cons_zero] at h0
    have hrest : ∀ j, j < rest.length →
        completeValueCatchingError fuel ctx t fn info (addPath path (.idx ((k + 1) + j)))
          (.value (rest.getD j .vNull)) = ⟨.ok (ws ((k + 1) + j)), [], []⟩ := by
      intro j hj
      have hx := h (j + 1) (by simpa using Nat.succ_lt_succ hj)
      have harith : k + (j + 1) = (k + 1) + j := by omega
      rw [harith] at hx
      simpa [List.getD_cons_succ] using hx
    have hr := ih (k + 1) hrest
    simp only [completeListItems, h0, hr]
    simp [List.range_succ_eq_map, List.map_map, Function.comp, Except.map,
      Nat.add_comm, Nat.add_left_comm, Nat.add_assoc]

/-- List-element loop when exactly one element completion fails under
isolation and every other element succeeds cleanly: elements keep
their source order, the failing slot alone becomes null, and the
caught error is appended exactly once. -/
theorem completeListItems_one_error (fuel : Nat) (ctx : ExecutionContext) (t : TypeRef)
    (fn : List FieldNode) (info : Info) (path : ResponsePath)
    (hnn : t.isNonNull = false) (vs : Nat → JValue) (e : GError) :
    ∀ (items : List JValue) (k i : Nat),
    k ≤ i → i < k + items.length →
    (∀ j, j < items.length → k + j ≠ i →
      completeValueCatchingError fuel ctx t fn info (addPath path (.idx (k + j)))
        (.value (items.getD j .vNull)) = ⟨.ok (vs (k + j)), [], []⟩) →
    completeValueWithLocatedError fuel ctx t fn info (addPath path (.idx i))
        (.value (items.getD (i - k) .vNull)) = ⟨.error (.gerr e), [], []⟩ →
    completeListItems fuel ctx t fn info path items k
      = ⟨.ok ((List.range items.length).map
          (fun j => if k + j = i then JValue.vNull else vs (k + j))), [e], []⟩ := by
  intro items
  induction items with
  | nil =>
    intro k i hk hlt _ _
    simp only [List.length_nil, Nat.add_zero] at hlt
    omega
  | cons item rest ih =>
    intro k i hk hlt hok hbad
    by_cases hki : k = i
    · subst hki
      have hb2 : completeValueWithLocatedError fuel ctx t fn info (addPath path (.idx k))
          (.value item) = ⟨.error (.gerr e), [], []⟩ := by
        simpa [Nat.sub_self, List.getD_cons_zero] using hbad
      have hcatch : completeValueCatchingError fuel ctx t fn info (addPath path (.idx k))
          (.value item) = ⟨.ok .vNull, [e], []⟩ := by
        cases t with
        | nonNull t2 => simp [TypeRef.isNonNull] at hnn
        | list t2 => simp [completeValueCatchingError, hb2]
        | named n => simp [completeValueCatchingError, hb2]
      have hrest : ∀ j, j < rest.length →
          completeValueCatchingError fuel ctx t fn info (addPath path (.idx ((k + 1) + j)))
            (.value (rest.getD j .vNull)) = ⟨.ok (vs ((k + 1) + j)), [], []⟩ := by
        intro j hj
        have hx := hok (j + 1) (by simpa using Nat.succ_lt_succ hj) (by omega)
        have harith : k + (j + 1) = (k + 1) + j := by omega
        rw [harith] at hx
        simpa [List.getD_cons_succ] using hx
      have hr := completeListItems_all_ok fuel ctx t fn info path vs rest (k + 1) hrest
      simp only [completeListItems, hcatch, hr]
      have hcondS : ∀ j : Nat, ¬(k + (j + 1) = k) := by omega
      simp [List.range_succ_eq_map, List.map_map, Function.comp, Except.map, hcondS,
        Nat.add_comm, Nat.add_left_comm, Nat.add_assoc]
    · have hklt : k < i := by omega
      have h0 := hok 0 (by simp) (by omega)
      simp only [Nat.add_zero, List.getD_cons_zero] at h0
      have hok' : ∀ j, j < rest.length → (k + 1) + j ≠ i →
          completeValueCatchingError fuel ctx t fn info (addPath path (.idx ((k + 1) + j)))
            (.value (rest.getD j .vNull)) = ⟨.ok (vs ((k + 1) + j)), [], []⟩ := by
        intro j hj hne
        have harith : (k + 1) + j = k + (j + 1) := by omega
        have hx := hok (j + 1) (by simpa using Nat.succ_lt_succ hj) (by omega)
        rw [harith]
        simpa [List.getD_cons_succ] using hx
      have hbad' : completeValueWithLocatedError fuel ctx t fn info (addPath path (.idx i))
          (.value (rest.getD (i - (k + 1)) .vNull)) = ⟨.error (.gerr e), [], []⟩ := by
        have hik : i - k = (i - (k + 1)) + 1 := by omega
        have hx := hbad
        rw [hik] at hx
        simpa [List.getD_cons_succ] using hx
      have hr := ih (k + 1) i (by omega)
        (by simp only [List.length_cons] at hlt; omega) hok' hbad'
      simp only [completeListItems, h0, hr]
      simp [List.range_succ_eq_map, List.map_map, Function.comp, Except.map, hki,
        Nat.add_comm, Nat.add_left_comm, Nat.add_assoc]

/-- C7: completing a list-typed field over a nullable inner type
preserves the source order of elements and isolates per-element
failures: when the element at index i fails under isolation and every
other element succeeds cleanly, the output list keeps the completed
values in order with null exactly at index i, and exactly one error is
recorded, a located error whose path ends in that index. -/
theorem C7_list_element_isolation (fuel : Nat) (ctx : ExecutionContext) (t : TypeRef)
    (fn : List FieldNode) (info : Info) (path : ResponsePath)
    (items : List JValue) (i : Nat) (vs : Nat → JValue) (e : GError)
    (hnn : t.isNonNull = false) (hi : i < items.length)
    (hok : ∀ j, j < items.length → j ≠ i →
      completeValueCatchingError fuel ctx t fn info (addPath path (.idx j))
        (.value (items.getD j .vNull)) = ⟨.ok (vs j), [], []⟩)
    (hbad : completeValueWithLocatedError fuel ctx t fn info (addPath path (.idx i))
        (.value (items.getD i .vNull)) = ⟨.error (.gerr e), [], []⟩) :
    completeValue fuel ctx (.list t) fn info path (.value (.vList items))
      = ⟨.ok (.vList ((List.range items.length).map
          (fun j => if j = i then JValue.vNull else vs j))), [e], []⟩
    ∧ ∃ m, e = .located m (responsePathAsArray path ++ [.idx i]) := by
  constructor
  · have hok0 : ∀ j, j < items.length → 0 + j ≠ i →
        completeValueCatchingError fuel ctx t fn info (addPath path (.idx (0 + j)))
          (.value (items.getD j .vNull)) = ⟨.ok (vs (0 + j)), [], []⟩ := by
      intro j hj hne
      simpa [Nat.zero_add] using hok j hj (by omega)
    have hbad0 : completeValueWithLocatedError fuel ctx t fn info (addPath path (.idx i))
        (.value (items.getD (i - 0) .vNull)) = ⟨.error (.gerr e), [], []⟩ := by
      simpa using hbad
    have h := completeListItems_one_error fuel ctx t fn info path hnn vs e items 0 i
      (by omega) (by omega) hok0 hbad0
    simp only [completeValue, completeListValue, isNullish, h]
    simp [Except.map, Nat.zero_add]
  · have h := completeValueWithLocatedError_error_shape fuel ctx t fn info
      (addPath path (.idx i)) (.value (items.getD i .vNull)) e [] [] hbad
    simpa [responsePathAsArray_addPath] using h

/-- Witness for C7 over the fixture scalar S: in the list 1, bad, 3
only the middle element fails serialization, so the output is 1, null,
3 with exactly one error whose path is the index 1. -/
theorem C7_list_element_isolation_witness :
    completeValue 0 fixCtx (.list (.named "S")) [] fixInfo .nil
        (.value (.vList [.vInt 1, .vStr "bad", .vInt 3]))
      = ⟨.ok (.vList [.vInt 1, .vNull, .vInt 3]),
         [.located "Expected a value of type \"S\" but received: bad" [.idx 1]], []⟩ := by
  have hok : ∀ j, j < ([JValue.vInt 1, .vStr "bad", .vInt 3] : List JValue).length → j ≠ 1 →
      completeValueCatchingError 0 fixCtx (.named "S") [] fixInfo (addPath .nil (.idx j))
        (.value (([JValue.vInt 1, .vStr "bad", .vInt 3] : List JValue).getD j .vNull))
        = ⟨.ok (([JValue.vInt 1, .vNull, .vInt 3] : List JValue).getD j .vNull), [], []⟩ := by
    intro j hj hne
    simp only [List.length_cons, List.length_nil] at hj
    interval_cases j
    · simp [completeValueCatchingError, completeValueWithLocatedError, completeValue,
        fixCtx, fixSchema, Schema.getType, isNullish, completeLeafValue, fixSerialize,
        Except.mapError]
    · exact absurd rfl hne
    · simp [completeValueCatchingError, completeValueWithLocatedError, completeValue,
        fixCtx, fixSchema, Schema.getType, isNullish, completeLeafValue, fixSerialize,
        Except.mapError]
  have hbad : completeValueWithLocatedError 0 fixCtx (.named "S") [] fixInfo
      (addPath .nil (.idx 1))
      (.value (([JValue.vInt 1, .vStr "bad", .vInt 3] : List JValue).getD 1 .vNull))
      = ⟨.error (.gerr (.located "Expected a value of type \"S\" but received: bad"
          [.idx 1])), [], []⟩ := by
    simp [completeValueWithLocatedError, completeValue, fixCtx, fixSchema, Schema.getType,
      isNullish, completeLeafValue, fixSerialize, Except.mapError, locatedError,
      GError.message, responsePathAsArray, responsePathWalk, addPath, jstr]
  have h := (C7_list_element_isolation 0 fixCtx (.named "S") [] fixInfo .nil
    [.vInt 1, .vStr "bad", .vInt 3] 1
    (fun j => ([JValue.vInt 1, .vNull, .vInt 3] : List JValue).getD j .vNull)
    (.located "Expected a value of type \"S\" but received: bad" [.idx 1])
    rfl (by simp) hok hbad).1
  rw [h]
  rfl

/-- Scan lemma: with no operation name and one operation already
selected, a document that still contains an operation definition and
only executable definitions makes the scan fail as ambiguous. -/
theorem buildCtxScan_ambiguous_with_op :
    ∀ (defs : List Definition) (o : OperationDef) (frags : List (String × FragmentDef)),
    (∀ d ∈ defs, d.isExecutable = true) → 1 ≤ opCount defs →
    buildCtxScan none defs (some o) frags
      = .error (.plain "Must provide operation name if query contains multiple operations.") := by
  intro defs
  induction defs with
  | nil => intro o frags _ hc; simp [opCount] at hc
  | cons d rest ih =>
    intro o frags hex hc
    cases d with
    | operationDef o2 => simp [buildCtxScan]
    | fragmentDef nm f =>
      have hc2 : 1 ≤ opCount rest := by
        simpa [opCount, List.countP_cons, Definition.isOperation] using hc
      simpa [buildCtxScan] using ih o (fragmentsInsert frags nm f)
        (fun d hd => hex d (List.mem_cons_of_mem _ hd)) hc2
    | otherDef k =>
      have := hex (.otherDef k) (List.mem_cons_self _ _)
      simp [Definition.isExecutable] at this

/-- Scan lemma: with no operation name, a document of executable
definitions containing at least two operation definitions makes the
scan fail as ambiguous. -/
theorem buildCtxScan_ambiguous :
    ∀ (defs : List Definition) (frags : List (String × FragmentDef)),
    (∀ d ∈ defs, d.isExecutable = true) → 2 ≤ opCount defs →
    buildCtxScan none defs none frags
      = .error (.plain "Must provide operation name if query contains multiple operations.") := by
  intro defs
  induction defs with
  | nil => intro frags _ hc; simp [opCount] at hc
  | cons d rest ih =>
    intro frags hex hc
    cases d with
    | operationDef o =>
      have hc2 : 1 ≤ opCount rest := by
        have heq : opCount (Definition.operationDef o :: rest) = opCount rest + 1 := by
          simp [opCount, List.countP_cons, Definition.isOperation]
        omega
      simpa [buildCtxScan] using buildCtxScan_ambiguous_with_op rest o frags
        (fun d hd => hex d (List.mem_cons_of_mem _ hd)) hc2
    | fragmentDef nm f =>
      have hc2 : 2 ≤ opCount rest := by
        simpa [opCount, List.countP_cons, Definition.isOperation] using hc
      simpa [buildCtxScan] using ih (fragmentsInsert frags nm f)
        (fun d hd => hex d (List.mem_cons_of_mem _ hd)) hc2
    | otherDef k =>
      have := hex (.otherDef k) (List.mem_cons_self _ _)
      simp [Definition.isExecutable] at this

/-- C6: for a document of executable definitions containing more than
one operation definition and no supplied operation name, execution
context construction fails with the ambiguous-operation error, and the
whole call returns only that error: no data, no partial context, and
no resolver invocation at all. -/
theorem C6_ambiguous_operation (fuel : Nat) (schema : Schema)
    (document : List Definition) (rootValue contextValue : JValue)
    (getVariableValues : OperationDef → Except GError JValue)
    (fieldResolver : Option Resolver)
    (hex : ∀ d ∈ document, d.isExecutable = true) (hc : 2 ≤ opCount document) :
    buildExecutionContext schema document rootValue contextValue getVariableValues
        none fieldResolver
      = .error (.plain "Must provide operation name if query contains multiple operations.")
    ∧ executeImpl fuel schema document rootValue contextValue getVariableValues
        none fieldResolver
      = (.ok ⟨none,
          some [.plain "Must provide operation name if query contains multiple operations."]⟩,
         []) := by
  have hscan := buildCtxScan_ambiguous document [] hex hc
  constructor
  · simp [buildExecutionContext, hscan]
  · simp [executeImpl, buildExecutionContext, hscan]

/-- Witness for C6: two named query operations with no supplied
operation name fail as ambiguous with no resolver invocation. -/
theorem C6_ambiguous_operation_witness :
    executeImpl 5 fixSchema c6Document .vNull .vNull (fun _ => .ok .vNull) none none
      = (.ok ⟨none,
          some [.plain "Must provide operation name if query contains multiple operations."]⟩,
         []) := by
  exact (C6_ambiguous_operation 5 fixSchema c6Document .vNull .vNull (fun _ => .ok .vNull)
    none
    (by intro d hd
        simp only [c6Document, List.mem_cons, List.not_mem_nil, or_false] at hd
        rcases hd with rfl | rfl <;> rfl)
    (by decide)).2

/-- Entry folds of the two drivers agree on groupings whose response
keys avoid the plain-object prototype key __proto__. -/
theorem executeFieldsSeriallyEntries_eq_of_no_proto (fuel : Nat) (ctx : ExecutionContext)
    (parentType : String) (sourceValue : JValue) (path : ResponsePath) :
    ∀ fields : Grouping, (∀ p ∈ fields, p.1 ≠ "__proto__") →
      executeFieldsSeriallyEntries fuel ctx parentType sourceValue path fields
        = executeFieldsEntries fuel ctx parentType sourceValue path fields := by
  intro fields
  induction fields with
  | nil => intro _; simp [executeFieldsSeriallyEntries, executeFieldsEntries]
  | cons e rest ih =>
    intro hall
    obtain ⟨k, ns⟩ := e
    have hk : k ≠ "__proto__" := hall (k, ns) (List.mem_cons_self _ _)
    have ih2 := ih (fun p hp => hall p (List.mem_cons_of_mem _ hp))
    simp only [executeFieldsSeriallyEntries, executeFieldsEntries, ih2]
    simp [hk]

/-- Entry folds of the two drivers always append the same errors and
perform the same resolver invocations, whatever the grouping keys. -/
theorem executeFieldsSeriallyEntries_errs_calls (fuel : Nat) (ctx : ExecutionContext)
    (parentType : String) (sourceValue : JValue) (path : ResponsePath) :
    ∀ fields : Grouping,
      (executeFieldsSeriallyEntries fuel ctx parentType sourceValue path fields).errs
        = (executeFieldsEntries fuel ctx parentType sourceValue path fields).errs
      ∧ (executeFieldsSeriallyEntries fuel ctx parentType sourceValue path fields).calls
        = (executeFieldsEntries fuel ctx parentType sourceValue path fields).calls := by
  intro fields
  induction fields with
  | nil => simp [executeFieldsSeriallyEntries, executeFieldsEntries]
  | cons e rest ih =>
    obtain ⟨k, ns⟩ := e
    simp only [executeFieldsSeriallyEntries, executeFieldsEntries]
    cases hres : (resolveField fuel ctx parentType sourceValue ns
        (addPath path (.fname k))).res with
    | error e2 => simp
    | ok o =>
      cases o with
      | none => simp [ih.1, ih.2]
      | some v =>
        by_cases hk : (k == "__proto__") = true
        · simp [hk, ih.1, ih.2]
        · simp [hk, ih.1, ih.2]

/-- Counterexample to C10 as stated: the source seeds the serial
reduce with a plain object literal but the read reduce with a
null-prototype object, so for the response key __proto__ the serial
driver's assignment hits the inherited setter and creates no own key
while the read driver creates one; on a grouping aliasing hello to
__proto__ the two drivers return objects with different keys. -/
theorem C10_proto_seed_counterexample :
    executeFieldsSerially 1 fixCtx "Q" .vNull .nil
        [("__proto__", [⟨some "__proto__", "hello", [], .ok .vNull, none⟩])]
      = ⟨.ok (.vObj []), [], [([.fname "__proto__"], "hello")]⟩
    ∧ executeFields 1 fixCtx "Q" .vNull .nil
        [("__proto__", [⟨some "__proto__", "hello", [], .ok .vNull, none⟩])]
      = ⟨.ok (.vObj [("__proto__", .vStr "world")]), [], [([.fname "__proto__"], "hello")]⟩
    ∧ executeFieldsSerially 1 fixCtx "Q" .vNull .nil
        [("__proto__", [⟨some "__proto__", "hello", [], .ok .vNull, none⟩])]
      ≠ executeFields 1 fixCtx "Q" .vNull .nil
        [("__proto__", [⟨some "__proto__", "hello", [], .ok .vNull, none⟩])] := by
  have h1 : executeFieldsSerially 1 fixCtx "Q" .vNull .nil
      [("__proto__", [⟨some "__proto__", "hello", [], .ok .vNull, none⟩])]
      = ⟨.ok (.vObj []), [], [([.fname "__proto__"], "hello")]⟩ := by
    simp [executeFieldsSerially, executeFieldsSeriallyEntries, resolveField, getFieldDef,
      fixCtx, fixSchema, Schema.getType, resolveFieldValueOrError,
      completeValueCatchingError, completeValueWithLocatedError, completeValue,
      completeLeafValue, fixSerialize, isNullish, responsePathAsArray, responsePathWalk,
      addPath, Except.map, Except.mapError]
  have h2 : executeFields 1 fixCtx "Q" .vNull .nil
      [("__proto__", [⟨some "__proto__", "hello", [], .ok .vNull, none⟩])]
      = ⟨.ok (.vObj [("__proto__", .vStr "world")]), [], [([.fname "__proto__"], "hello")]⟩ := by
    simp [executeFields, executeFieldsEntries, resolveField, getFieldDef,
      fixCtx, fixSchema, Schema.getType, resolveFieldValueOrError,
      completeValueCatchingError, completeValueWithLocatedError, completeValue,
      completeLeafValue, fixSerialize, isNullish, responsePathAsArray, responsePathWalk,
      addPath, Except.map, Except.mapError]
  refine ⟨h1, h2, ?_⟩
  rw [h1, h2]
  intro h
  have := congrArg Out.res h
  simp at this

/-- C10 as amended: the serial write-mode driver and the ordered
read-mode driver are extensionally equal, returning result objects
with the same keys in the same insertion order and equal values, for
every fields grouping none of whose response keys is __proto__ (the
plain-object seed of the serial reduce swallows that one key); and on
every grouping, including ones with a __proto__ key, the two drivers
perform the same sequence of resolver invocations and the same
sequence of error-list appends. -/
theorem C10_serial_read_drivers_agree_amended :
    (∀ (fuel : Nat) (ctx : ExecutionContext) (parentType : String) (sourceValue : JValue)
        (path : ResponsePath) (fields : Grouping),
      (∀ p ∈ fields, p.1 ≠ "__proto__") →
      executeFieldsSerially fuel ctx parentType sourceValue path fields
        = executeFields fuel ctx parentType sourceValue path fields)
    ∧ (∀ (fuel : Nat) (ctx : ExecutionContext) (parentType : String) (sourceValue : JValue)
        (path : ResponsePath) (fields : Grouping),
      (executeFieldsSerially fuel ctx parentType sourceValue path fields).errs
        = (executeFields fuel ctx parentType sourceValue path fields).errs
      ∧ (executeFieldsSerially fuel ctx parentType sourceValue path fields).calls
        = (executeFields fuel ctx parentType sourceValue path fields).calls) := by
  constructor
  · intro fuel ctx parentType sourceValue path fields hall
    simp only [executeFieldsSerially, executeFields,
      executeFieldsSeriallyEntries_eq_of_no_proto fuel ctx parentType sourceValue path
        fields hall]
  · intro fuel ctx parentType sourceValue path fields
    have h := executeFieldsSeriallyEntries_errs_calls fuel ctx parentType sourceValue
      path fields
    exact ⟨by simpa [executeFieldsSerially, executeFields] using h.1,
      by simpa [executeFieldsSerially, executeFields] using h.2⟩

/-- Witness for the amended C10: on the singleton grouping of the
ordinary key hello, the serial and read drivers agree. -/
theorem C10_serial_read_drivers_agree_amended_witness :
    executeFieldsSerially 1 fixCtx "Q" .vNull .nil
        [("hello", [⟨none, "hello", [], .ok .vNull, none⟩])]
      = executeFields 1 fixCtx "Q" .vNull .nil
        [("hello", [⟨none, "hello", [], .ok .vNull, none⟩])] := by
  exact C10_serial_read_drivers_agree_amended.1 1 fixCtx "Q" .vNull .nil
    [("hello", [⟨none, "hello", [], .ok .vNull, none⟩])]
    (by
      intro p hp
      simp only [List.mem_cons, List.not_mem_nil, or_false] at hp
      subst hp
      decide)

end GqlSync
